import Mathlib

/-!
A shallow embedding of the Quiz-Mantra quiz-assessment backend
(`backend/src/models/Submission.js`, `backend/src/controllers/quizController.js`,
the submission controller, `backend/src/controllers/competitionController.js` and the
Competition model), together with theorems settling the specification claims about
scoring, attempt lifecycle, revaluation, leaderboards and error handling.

Modelling conventions: JavaScript numbers that hold integral values (points, scores,
percentages, epoch milliseconds, seconds) are `Int`/`Nat`; `Math.round(x)` for a
rational `n/d` with `d > 0` is `(2*n + d) / (2*d)` on `Int` (the Lean `/` on `Int` is
Euclidean division, which is floor division for a positive divisor, and
`Math.round(x) = ⌊x + 1/2⌋` in JavaScript); Mongoose documents are structures;
the document store is a list of submissions; `await model.save()` applies the
schema pre-save middleware; request-supplied `Mixed` values are a `JSValue`
variant type and JavaScript `TypeError`s surface as `Except` errors.
-/

namespace QuizMantra

/-- Question `type` enum of the Quiz model (`models/Quiz.js`). -/
inductive QType
  | mc
  | tf
  | shortAnswer
  | essay
deriving DecidableEq, Repr

/-- One entry of the `options` array of a multiple-choice question. -/
structure QOption where
  text : String
  isCorrect : Bool
deriving DecidableEq, Repr

/-- A question subdocument of a quiz.  `correctAnswer` is optional in the schema
(`correctAnswer: { type: String, trim: true }`, not required); `points` has
default 1 and validator `min: 0`, hence `Nat`. -/
structure Question where
  qid : Nat
  qtype : QType
  options : List QOption
  correctAnswer : Option String
  points : Nat
deriving DecidableEq, Repr

/-- The JavaScript coalescing `question.points || 1` used throughout the source:
`0` is falsy, so a zero-point question counts as 1 point. -/
def effPoints (q : Question) : Nat :=
  if q.points = 0 then 1 else q.points

/-- A runtime value of the Mongoose `Mixed`-typed `answer` field: the request may
carry a string, an array, an object, a number, a boolean, or nothing. -/
inductive JSValue
  | vstr (s : String)
  | varr (elems : List String)
  | vobj
  | vnum (n : Int)
  | vbool (b : Bool)
  | vundef
deriving DecidableEq, Repr

/-- Submission `status` enum (`models/Submission.js`). -/
inductive SStatus
  | inProgress
  | submitted
  | evaluated
  | needsReview
deriving DecidableEq, Repr

/-- Source: `revaluation.status` enum, schema default `pending`. -/
inductive RStatus
  | pending
  | approved
  | denied
deriving DecidableEq, Repr

/-- Quiz `status` enum (`models/Quiz.js`). -/
inductive QzStatus
  | draft
  | published
  | archived
  | scheduled
deriving DecidableEq, Repr

/-- AI-insights payload returned by the AI collaborator `evaluateSubmission`. -/
structure AIInsights where
  strengths : List String
  weaknesses : List String
  recommendations : List String
  detailedAnalysis : String
deriving DecidableEq, Repr

/-- An answer subdocument of a submission (`answerSchema`).  `points` is an `Int`
because manual-grade overrides copy an arbitrary request number into it. -/
structure Answer where
  questionId : Nat
  answer : JSValue
  isCorrect : Bool
  points : Int
  timeSpent : Int
deriving DecidableEq, Repr

/-- A Submission document.  Timing fields are epoch milliseconds
(`startTime`, `endTime`) and seconds (`totalTime`, `timeLimit`), matching the
schema comments.  Flattened score/evaluation/revaluation subdocuments. -/
structure Submission where
  sid : Nat
  quiz : Nat
  student : Nat
  answers : List Answer
  scoreTotal : Int
  scorePercentage : Int
  scoreGrade : String
  startTime : Int
  endTime : Option Int
  totalTime : Int
  timeLimit : Int
  status : SStatus
  autoGraded : Bool
  evaluatedBy : Option Nat
  evaluatedAt : Option Int
  feedback : Option String
  aiInsights : Option AIInsights
  revalRequested : Bool
  revalRequestedAt : Option Int
  revalReason : Option String
  revalStatus : RStatus
  revalHandledBy : Option Nat
  revalHandledAt : Option Int
  revalResponse : Option String
deriving DecidableEq, Repr

/-- Quiz `settings` subdocument (`timeLimit` is minutes). -/
structure QuizSettings where
  timeLimit : Int
  allowRetake : Bool
  autoGrade : Bool
  passingScore : Int
deriving DecidableEq, Repr

/-- A Quiz document, restricted to the fields the attempt engine reads. -/
structure Quiz where
  qzid : Nat
  questions : List Question
  createdBy : Nat
  assignedTo : List Nat
  status : QzStatus
  settings : QuizSettings
  schedStart : Option Int
  schedEnd : Option Int
deriving DecidableEq, Repr

/-- Source: `Math.round(num/den)` for `den > 0`, as exact rational rounding:
`⌊num/den + 1/2⌋ = (2*num + den) / (2*den)` with floor division. -/
def jsRound (num den : Int) : Int :=
  (2 * num + den) / (2 * den)

/-- The grade-threshold table of the Submission pre-save middleware
(`models/Submission.js` lines 100-112). -/
def gradeOf (p : Int) : String :=
  if p ≥ 95 then "A+"
  else if p ≥ 90 then "A"
  else if p ≥ 85 then "B+"
  else if p ≥ 80 then "B"
  else if p ≥ 75 then "C+"
  else if p ≥ 70 then "C"
  else if p ≥ 60 then "D"
  else "F"

/-- The `submissionSchema.pre-save hook` middleware: whenever
`score.percentage >= 0` it recomputes `score.grade` from the threshold table.
Every modelled `save()` goes through this function. -/
def presave (s : Submission) : Submission :=
  if s.scorePercentage ≥ 0 then { s with scoreGrade := gradeOf s.scorePercentage } else s

/-- Source: `quizQuestions.find(q => q._id.toString() === answer.questionId.toString())`. -/
def findQuestion (questions : List Question) (qid : Nat) : Option Question :=
  questions.find? (fun q => q.qid == qid)

/-- The accumulator loop of `submissionSchema.methods.calculateScore`: walk the
submission answers, and for each answer whose question is found add
`question.points || 1` to `totalPoints` and, when `answer.isCorrect`,
`answer.points || (question.points || 1)` to `earnedPoints`.
Returns `(totalPoints, earnedPoints)`. -/
def scoreFold (questions : List Question) (answers : List Answer) : Int × Int :=
  answers.foldl
    (fun acc a =>
      match findQuestion questions a.questionId with
      | some q =>
          (acc.1 + (effPoints q : Int),
           if a.isCorrect then
             acc.2 + (if a.points = 0 then (effPoints q : Int) else a.points)
           else acc.2)
      | none => acc)
    (0, 0)

/-- Source: `submissionSchema.methods.calculateScore(quizQuestions)`: sets
`score.total = earnedPoints` and
`score.percentage = totalPoints > 0 ? Math.round((earnedPoints/totalPoints)*100) : 0`. -/
def calculateScore (s : Submission) (questions : List Question) : Submission :=
  let tp := (scoreFold questions s.answers).1
  let ep := (scoreFold questions s.answers).2
  { s with
      scoreTotal := ep,
      scorePercentage := if tp > 0 then jsRound (100 * ep) tp else 0 }

/-- Source: `submissionSchema.methods.finishSubmission()`: status `submitted`, `endTime`
now, `totalTime = Math.floor((endTime - startTime)/1000)`. -/
def finishSubmission (s : Submission) (now : Int) : Submission :=
  { s with
      status := .submitted,
      endTime := some now,
      totalTime := (now - s.startTime) / 1000 }

/-- Source: `quizSchema.methods.isAvailable()`: published, and `now` within the optional
schedule window (a missing bound imposes no constraint). -/
def isAvailable (qz : Quiz) (now : Int) : Bool :=
  qz.status == .published &&
  (match qz.schedStart with
   | some s => decide (s ≤ now)
   | none => true) &&
  (match qz.schedEnd with
   | some e => decide (now ≤ e)
   | none => true)

/-- The persistence collaborator, restricted to the submissions collection. -/
structure DB where
  subs : List Submission
deriving DecidableEq, Repr

/-- The `Submission.findOne({quiz, student, status: in-progress})` predicate of
`startQuizAttempt`. -/
def inProgFor (qzid st : Nat) (s : Submission) : Bool :=
  s.quiz == qzid && s.student == st && s.status == .inProgress

/-- Source: `Submission.findOne` returns the first matching document. -/
def findInProgress (db : DB) (qzid st : Nat) : Option Submission :=
  db.subs.find? (inProgFor qzid st)

/-- Source: `quiz.assignedTo.includes(user) || (quiz.assignedTo.length === 0 && quiz.status === published)`. -/
def hasAccess (qz : Quiz) (student : Nat) : Bool :=
  qz.assignedTo.contains student || (qz.assignedTo.isEmpty && qz.status == .published)

/-- Source: `Submission.findOne({quiz, student, status: { $in: [submitted,evaluated] }})`
as a presence check. -/
def hasCompleted (db : DB) (qzid st : Nat) : Bool :=
  db.subs.any (fun s =>
    s.quiz == qzid && s.student == st && (s.status == .submitted || s.status == .evaluated))

/-- The document built by `Submission.create` in `startQuizAttempt`:
status `in-progress`, `startTime = now`, `timeLimit = settings.timeLimit * 60`,
all remaining fields at their schema defaults (note `revaluation.status`
defaults to `pending`). -/
def newSubmission (freshSid : Nat) (qz : Quiz) (student : Nat) (now : Int) : Submission :=
  { sid := freshSid
    quiz := qz.qzid
    student := student
    answers := []
    scoreTotal := 0
    scorePercentage := 0
    scoreGrade := "F"
    startTime := now
    endTime := none
    totalTime := 0
    timeLimit := qz.settings.timeLimit * 60
    status := .inProgress
    autoGraded := false
    evaluatedBy := none
    evaluatedAt := none
    feedback := none
    aiInsights := none
    revalRequested := false
    revalRequestedAt := none
    revalReason := none
    revalStatus := .pending
    revalHandledBy := none
    revalHandledAt := none
    revalResponse := none }

/-- Failure modes of `startQuizAttempt` (each an early `return res.status(4xx)`).
The conflict response carries the existing in-progress document in `data`. -/
inductive StartErr
  | notAvailable
  | noAccess
  | conflict (existing : Submission)
  | retakeDenied
deriving DecidableEq, Repr

/-- Source: `startQuizAttempt` (`controllers/quizController.js` lines 330-418):
availability check, access check, duplicate-in-progress check (conflict carries
the existing record), retake-policy check, then `Submission.create`.
`freshSid` models the fresh `_id` Mongo assigns to the created document. -/
def startQuizAttempt (db : DB) (qz : Quiz) (student : Nat) (now : Int) (freshSid : Nat) :
    Except StartErr Submission × DB :=
  if !isAvailable qz now then (.error .notAvailable, db)
  else if !hasAccess qz student then (.error .noAccess, db)
  else
    match findInProgress db qz.qzid student with
    | some existing => (.error (.conflict existing), db)
    | none =>
        if !qz.settings.allowRetake && hasCompleted db qz.qzid student then
          (.error .retakeDenied, db)
        else
          let s := presave (newSubmission freshSid qz student now)
          (.ok s, ⟨db.subs ++ [s]⟩)

/-- One element of the request `answers` array in `submitQuiz`. -/
structure RawAnswer where
  questionId : Nat
  answer : JSValue
  timeSpent : Int
deriving DecidableEq, Repr

/-- Source: `value.toLowerCase()` on a `Mixed` request value: a `TypeError` is thrown
unless the value is a string. -/
def jsToLower : JSValue → Except Unit String
  | .vstr s => .ok s.toLower
  | _ => .error ()

/-- Source: `question.correctAnswer.toLowerCase()`: a `TypeError` is thrown when
`correctAnswer` is absent (`undefined.toLowerCase`). -/
def optToLower : Option String → Except Unit String
  | some s => .ok s.toLower
  | none => .error ()

/-- JavaScript strict equality `text === value` between a string and a `Mixed`
value: false (never a throw) when the value is not a string. -/
def jsStrictEqStr (t : String) (v : JSValue) : Bool :=
  match v with
  | .vstr s => t == s
  | _ => false

/-- The per-answer grading body of `submitQuiz` (lines 459-487): match the
question by id (unmatched answers keep `isCorrect=false, points=0`), then grade
by question type; `true-false` and `short-answer` call `.toLowerCase()` on both
the stored `correctAnswer` and the raw request value and may therefore throw. -/
def processOne (questions : List Question) (r : RawAnswer) : Except Unit Answer :=
  match findQuestion questions r.questionId with
  | none => .ok ⟨r.questionId, r.answer, false, 0, r.timeSpent⟩
  | some q =>
      match q.qtype with
      | .mc =>
          let correctOption := q.options.find? (fun o => o.isCorrect)
          let isC := match correctOption with
            | some o => jsStrictEqStr o.text r.answer
            | none => false
          .ok ⟨r.questionId, r.answer, isC, if isC then (effPoints q : Int) else 0, r.timeSpent⟩
      | .tf => do
          let ca ← optToLower q.correctAnswer
          let av ← jsToLower r.answer
          let isC := ca == av
          .ok ⟨r.questionId, r.answer, isC, if isC then (effPoints q : Int) else 0, r.timeSpent⟩
      | .shortAnswer => do
          let ca ← optToLower q.correctAnswer
          let av ← jsToLower r.answer
          let isC := ca.trim == av.trim
          .ok ⟨r.questionId, r.answer, isC, if isC then (effPoints q : Int) else 0, r.timeSpent⟩
      | .essay => .ok ⟨r.questionId, r.answer, false, 0, r.timeSpent⟩

/-- Source: `answers.map(...)` in `submitQuiz`: sequential, aborted by the first thrown
`TypeError`. -/
def processAnswers (questions : List Question) (raw : List RawAnswer) :
    Except Unit (List Answer) :=
  raw.mapM (processOne questions)

/-- Failure modes of `submitQuiz`: the 404 on a missing active submission, the
400 on the time limit, and an uncaught `TypeError` escaping the grading loop. -/
inductive SubmitErr
  | submissionNotFound
  | timeExceeded
  | thrownTypeError
deriving DecidableEq, Repr

/-- Write back one document by id (`await submission.save()` on a loaded copy). -/
def updateById (db : DB) (sid : Nat) (s' : Submission) : DB :=
  ⟨db.subs.map (fun s => if s.sid == sid then s' else s)⟩

/-- Source: `submitQuiz` (`controllers/quizController.js` lines 423-512): find the owned
in-progress submission, check the time limit
(`timing.timeLimit && Math.floor((now - startTime)/1000) > timing.timeLimit`),
grade the answers, `calculateScore`, `finishSubmission`, auto-evaluate when
`quiz.settings.autoGrade`, then save (pre-save recomputes the grade). -/
def submitQuiz (db : DB) (qz : Quiz) (student : Nat) (submissionId : Nat)
    (raw : List RawAnswer) (now : Int) : Except SubmitErr Submission × DB :=
  match db.subs.find? (fun s =>
      s.sid == submissionId && s.student == student && s.status == .inProgress) with
  | none => (.error .submissionNotFound, db)
  | some sub =>
      let timeElapsed := (now - sub.startTime) / 1000
      if sub.timeLimit != 0 && decide (timeElapsed > sub.timeLimit) then
        (.error .timeExceeded, db)
      else
        match processAnswers qz.questions raw with
        | .error _ => (.error .thrownTypeError, db)
        | .ok answers =>
            let s1 := calculateScore { sub with answers := answers } qz.questions
            let s2 := finishSubmission s1 now
            let s3 :=
              if qz.settings.autoGrade then
                { s2 with status := .evaluated, autoGraded := true, evaluatedAt := some now }
              else s2
            let s4 := presave s3
            (.ok s4, updateById db sub.sid s4)

/-- One element of the `manualGrades` / `newGrades` request arrays: an arbitrary
number of points for a question id. -/
structure ManualGrade where
  questionId : Nat
  points : Int
deriving DecidableEq, Repr

/-- The `findIndex`-then-assign step applied per manual grade: only the first
answer with the matching `questionId` is overwritten, with
`points = grade.points` and `isCorrect = grade.points > 0`. -/
def updateFirstAnswer (g : ManualGrade) : List Answer → List Answer
  | [] => []
  | a :: rest =>
      if a.questionId == g.questionId then
        { a with points := g.points, isCorrect := decide (g.points > 0) } :: rest
      else a :: updateFirstAnswer g rest

/-- Source: `manualGrades.forEach(...)` in `evaluateSubmission` / `handleRevaluation`. -/
def applyManualGrades (answers : List Answer) (grades : List ManualGrade) : List Answer :=
  grades.foldl (fun acc g => updateFirstAnswer g acc) answers

/-- Failure modes of the evaluation endpoints. -/
inductive EvalErr
  | notFound
  | notAuthorized
deriving DecidableEq, Repr

/-- Source: `evaluateSubmission` (submission controller): find, authorize (quiz owner or
admin), apply `manualGrades` when the request carries an array (recalculating
the score), stamp `evaluatedBy/evaluatedAt/feedback`, set status `evaluated`,
and — when `aiInsights` is absent — attempt the AI collaborator call, whose
outcome is `aiResult`; a thrown AI error is caught and evaluation proceeds
without insights.  Finally save. -/
def evaluateSubmissionOp (db : DB) (qz : Quiz) (userId : Nat) (isAdmin : Bool)
    (submissionId : Nat) (feedback : Option String) (manualGrades : Option (List ManualGrade))
    (aiResult : Except Unit AIInsights) (now : Int) : Except EvalErr Submission × DB :=
  match db.subs.find? (fun s => s.sid == submissionId) with
  | none => (.error .notFound, db)
  | some sub =>
      if qz.createdBy != userId && !isAdmin then (.error .notAuthorized, db)
      else
        let s1 :=
          match manualGrades with
          | some grades =>
              calculateScore { sub with answers := applyManualGrades sub.answers grades }
                qz.questions
          | none => sub
        let s2 := { s1 with
          evaluatedBy := some userId, evaluatedAt := some now,
          feedback := feedback, status := .evaluated }
        let s3 :=
          if s2.aiInsights.isNone then
            match aiResult with
            | .ok insights => { s2 with aiInsights := some insights }
            | .error _ => s2
          else s2
        let s4 := presave s3
        (.ok s4, updateById db sub.sid s4)

/-- Failure modes of `requestRevaluation`. -/
inductive ReqRevalErr
  | notFound
  | notAuthorized
  | notEvaluated
  | alreadyRequested
deriving DecidableEq, Repr

/-- Source: `requestRevaluation`: student-owned, status `evaluated`, not already
requested; sets `requested`, `requestedAt`, `reason`, `status = pending`. -/
def requestRevaluation (db : DB) (userId : Nat) (submissionId : Nat)
    (reason : Option String) (now : Int) : Except ReqRevalErr Submission × DB :=
  match db.subs.find? (fun s => s.sid == submissionId) with
  | none => (.error .notFound, db)
  | some sub =>
      if sub.student != userId then (.error .notAuthorized, db)
      else if sub.status != .evaluated then (.error .notEvaluated, db)
      else if sub.revalRequested then (.error .alreadyRequested, db)
      else
        let s' := presave { sub with
          revalRequested := true, revalRequestedAt := some now,
          revalReason := reason, revalStatus := .pending }
        (.ok s', updateById db sub.sid s')

/-- Failure modes of `handleRevaluation`. -/
inductive HandleRevalErr
  | notFound
  | notAuthorized
  | noRequest
deriving DecidableEq, Repr

/-- Source: `handleRevaluation` (submission controller): find, authorize, and reject only
when `!submission.revaluation.requested` — the guard does NOT inspect
`revaluation.status`.  It then sets `revaluation.status = decision` with
`handledBy/handledAt/response`, and when the decision is `approved` and the
request carries `newGrades`, reapplies the overrides and recalculates the score.
Finally save. -/
def handleRevaluation (db : DB) (qz : Quiz) (userId : Nat) (isAdmin : Bool)
    (submissionId : Nat) (decision : RStatus) (response : Option String)
    (newGrades : Option (List ManualGrade)) (now : Int) :
    Except HandleRevalErr Submission × DB :=
  match db.subs.find? (fun s => s.sid == submissionId) with
  | none => (.error .notFound, db)
  | some sub =>
      if qz.createdBy != userId && !isAdmin then (.error .notAuthorized, db)
      else if !sub.revalRequested then (.error .noRequest, db)
      else
        let s1 := { sub with
          revalStatus := decision, revalHandledBy := some userId,
          revalHandledAt := some now, revalResponse := response }
        let s2 :=
          match decision, newGrades with
          | .approved, some grades =>
              calculateScore { s1 with answers := applyManualGrades s1.answers grades }
                qz.questions
          | _, _ => s1
        let s3 := presave s2
        (.ok s3, updateById db sub.sid s3)

/-- Participant `status` enum of the Competition model. -/
inductive PStatus
  | registered
  | participated
  | disqualified
deriving DecidableEq, Repr

/-- A competition participant record. -/
structure Participant where
  user : Nat
  pstatus : PStatus
deriving DecidableEq, Repr

/-- A leaderboard entry (`competitionSchema.leaderboard` items). -/
structure LBEntry where
  user : Nat
  submission : Nat
  score : Int
  percentage : Int
  completionTime : Int
  completedAt : Option Int
  rank : Nat
deriving DecidableEq, Repr

/-- Competition `status` enum. -/
inductive CStatus
  | draft
  | registrationOpen
  | registrationClosed
  | active
  | completed
  | cancelled
deriving DecidableEq, Repr

/-- A Competition document, restricted to the fields the entry/leaderboard
operations read. -/
structure Competition where
  quiz : Nat
  status : CStatus
  compStart : Int
  compEnd : Int
  participants : List Participant
  leaderboard : List LBEntry
deriving DecidableEq, Repr

/-- Source: `competitionSchema.methods.isActive()`. -/
def compIsActive (c : Competition) (now : Int) : Bool :=
  c.status == .active && decide (c.compStart ≤ now) && decide (now ≤ c.compEnd)

/-- The sort comparator of `updateLeaderboard` read as a may-precede relation:
`a` may come (weakly) before `b` iff the comparator
`(a,b) => b.score !== a.score ? b.score - a.score : a.completionTime - b.completionTime`
is ≤ 0, i.e. strictly greater score, or equal score and weakly smaller
completion time. -/
def lbLE (a b : LBEntry) : Bool :=
  if a.score == b.score then decide (a.completionTime ≤ b.completionTime)
  else decide (b.score < a.score)

/-- The `forEach((entry, index) => entry.rank = index + 1)` pass. -/
def assignRanksFrom (i : Nat) : List LBEntry → List LBEntry
  | [] => []
  | e :: rest => { e with rank := i + 1 } :: assignRanksFrom (i + 1) rest

/-- Ranks assigned starting at index 0, i.e. dense ranks `1..N`. -/
def assignRanks (l : List LBEntry) : List LBEntry :=
  assignRanksFrom 0 l

/-- Source: `competitionSchema.methods.updateLeaderboard()` on the loaded leaderboard:
stable sort by (score desc, completionTime asc), then dense ranks 1..N.
JavaScript `Array.prototype.sort` is stable, as is `List.mergeSort`. -/
def updateLeaderboard (lb : List LBEntry) : List LBEntry :=
  assignRanks (lb.mergeSort lbLE)

/-- The entry pushed for a first-time submitter in `submitCompetitionEntry`
(`rank` takes its place only at the `updateLeaderboard` call that follows). -/
def mkEntry (userId sid : Nat) (sub : Submission) : LBEntry :=
  { user := userId
    submission := sid
    score := sub.scoreTotal
    percentage := sub.scorePercentage
    completionTime := sub.totalTime
    completedAt := sub.endTime
    rank := 0 }

/-- Mutate the first entry matching the student (`leaderboard.find` returns a
live reference to the first match). -/
def updateFirstEntry (student : Nat) (f : LBEntry → LBEntry) :
    List LBEntry → List LBEntry
  | [] => []
  | e :: rest =>
      if e.user == student then f e :: rest
      else e :: updateFirstEntry student f rest

/-- The upsert block of `submitCompetitionEntry`
(`controllers/competitionController.js` lines 311-335): when the student already
has an entry, overwrite its score/percentage/completionTime/submission/completedAt
only if the new submission percentage is strictly greater; otherwise push a
fresh entry. -/
def upsertEntry (lb : List LBEntry) (student sid : Nat) (sub : Submission) : List LBEntry :=
  match lb.find? (fun e => e.user == student) with
  | some _ =>
      updateFirstEntry student
        (fun e =>
          if sub.scorePercentage > e.percentage then
            { e with
                score := sub.scoreTotal, percentage := sub.scorePercentage,
                completionTime := sub.totalTime, submission := sid,
                completedAt := sub.endTime }
          else e)
        lb
  | none => lb ++ [mkEntry student sid sub]

/-- Failure modes of `submitCompetitionEntry`. -/
inductive CompErr
  | notActive
  | notRegistered
  | submissionNotFound
  | differentQuiz
deriving DecidableEq, Repr

/-- Source: `p.status = participated` on the first matching participant. -/
def updateFirstParticipant (userId : Nat) : List Participant → List Participant
  | [] => []
  | p :: rest =>
      if p.user == userId then { p with pstatus := .participated } :: rest
      else p :: updateFirstParticipant userId rest

/-- Source: `submitCompetitionEntry`: activity, registration and submission-ownership /
quiz-match checks, then the leaderboard upsert, the participant-status update
and `updateLeaderboard`. -/
def submitCompetitionEntry (comp : Competition) (db : DB) (userId : Nat)
    (submissionId : Nat) (now : Int) : Except CompErr Competition :=
  if !compIsActive comp now then .error .notActive
  else
    match comp.participants.find? (fun p => p.user == userId) with
    | none => .error .notRegistered
    | some _ =>
        match db.subs.find? (fun s => s.sid == submissionId) with
        | none => .error .submissionNotFound
        | some sub =>
            if sub.student != userId then .error .submissionNotFound
            else if sub.quiz != comp.quiz then .error .differentQuiz
            else
              let lb' := upsertEntry comp.leaderboard userId submissionId sub
              .ok { comp with
                leaderboard := updateLeaderboard lb',
                participants := updateFirstParticipant userId comp.participants }

/-! Field-preservation lemmas for the save / scoring helpers. -/

@[simp] theorem presave_sid (s : Submission) : (presave s).sid = s.sid := by
  unfold presave; split <;> rfl

@[simp] theorem presave_quiz (s : Submission) : (presave s).quiz = s.quiz := by
  unfold presave; split <;> rfl

@[simp] theorem presave_student (s : Submission) : (presave s).student = s.student := by
  unfold presave; split <;> rfl

@[simp] theorem presave_status (s : Submission) : (presave s).status = s.status := by
  unfold presave; split <;> rfl

@[simp] theorem presave_answers (s : Submission) : (presave s).answers = s.answers := by
  unfold presave; split <;> rfl

@[simp] theorem presave_scoreTotal (s : Submission) : (presave s).scoreTotal = s.scoreTotal := by
  unfold presave; split <;> rfl

@[simp] theorem presave_scorePercentage (s : Submission) :
    (presave s).scorePercentage = s.scorePercentage := by
  unfold presave; split <;> rfl

@[simp] theorem presave_evaluatedBy (s : Submission) :
    (presave s).evaluatedBy = s.evaluatedBy := by
  unfold presave; split <;> rfl

@[simp] theorem presave_evaluatedAt (s : Submission) :
    (presave s).evaluatedAt = s.evaluatedAt := by
  unfold presave; split <;> rfl

@[simp] theorem presave_feedback (s : Submission) : (presave s).feedback = s.feedback := by
  unfold presave; split <;> rfl

@[simp] theorem presave_aiInsights (s : Submission) : (presave s).aiInsights = s.aiInsights := by
  unfold presave; split <;> rfl

@[simp] theorem presave_revalRequested (s : Submission) :
    (presave s).revalRequested = s.revalRequested := by
  unfold presave; split <;> rfl

@[simp] theorem presave_revalStatus (s : Submission) :
    (presave s).revalStatus = s.revalStatus := by
  unfold presave; split <;> rfl

/-- The pre-save middleware recomputes the grade from the threshold table
whenever the percentage is nonnegative. -/
theorem presave_scoreGrade_of_nonneg (s : Submission) (h : 0 ≤ s.scorePercentage) :
    (presave s).scoreGrade = gradeOf s.scorePercentage := by
  unfold presave
  rw [if_pos h]

@[simp] theorem calculateScore_sid (s : Submission) (qs : List Question) :
    (calculateScore s qs).sid = s.sid := rfl

@[simp] theorem calculateScore_quiz (s : Submission) (qs : List Question) :
    (calculateScore s qs).quiz = s.quiz := rfl

@[simp] theorem calculateScore_student (s : Submission) (qs : List Question) :
    (calculateScore s qs).student = s.student := rfl

@[simp] theorem calculateScore_status (s : Submission) (qs : List Question) :
    (calculateScore s qs).status = s.status := rfl

@[simp] theorem calculateScore_answers (s : Submission) (qs : List Question) :
    (calculateScore s qs).answers = s.answers := rfl

@[simp] theorem calculateScore_aiInsights (s : Submission) (qs : List Question) :
    (calculateScore s qs).aiInsights = s.aiInsights := rfl

@[simp] theorem calculateScore_revalRequested (s : Submission) (qs : List Question) :
    (calculateScore s qs).revalRequested = s.revalRequested := rfl

@[simp] theorem calculateScore_revalStatus (s : Submission) (qs : List Question) :
    (calculateScore s qs).revalStatus = s.revalStatus := rfl

theorem calculateScore_scoreTotal (s : Submission) (qs : List Question) :
    (calculateScore s qs).scoreTotal = (scoreFold qs s.answers).2 := rfl

theorem calculateScore_scorePercentage (s : Submission) (qs : List Question) :
    (calculateScore s qs).scorePercentage =
      (if (scoreFold qs s.answers).1 > 0 then
        jsRound (100 * (scoreFold qs s.answers).2) (scoreFold qs s.answers).1
       else 0) := rfl

/-! ## Claim C7: per-type grading rules -/

/-- Spec-side predicate: equality ignoring case. -/
def eqIgnoringCase (x y : String) : Prop :=
  x.toLower = y.toLower

/-- Spec-side predicate: equality after trimming and ignoring case. -/
def eqTrimIgnoringCase (x y : String) : Prop :=
  x.toLower.trim = y.toLower.trim

/-- C7 (confirmed): for a submitted answer matched to a question of its quiz, a
true-false answer is correct iff it equals `correctAnswer` ignoring case; a
short-answer answer is correct iff it equals `correctAnswer` after trimming and
ignoring case; an essay answer is never auto-graded and always receives
`isCorrect = false` and `points = 0`. -/
theorem C7_grading_rules (questions : List Question) (q : Question) (r : RawAnswer)
    (hfind : findQuestion questions r.questionId = some q) :
    (∀ ca s, q.qtype = QType.tf → q.correctAnswer = some ca → r.answer = JSValue.vstr s →
      ∃ a, processOne questions r = .ok a ∧
        (a.isCorrect = true ↔ eqIgnoringCase ca s) ∧
        a.points = (if a.isCorrect then (effPoints q : Int) else 0)) ∧
    (∀ ca s, q.qtype = QType.shortAnswer → q.correctAnswer = some ca →
        r.answer = JSValue.vstr s →
      ∃ a, processOne questions r = .ok a ∧
        (a.isCorrect = true ↔ eqTrimIgnoringCase ca s) ∧
        a.points = (if a.isCorrect then (effPoints q : Int) else 0)) ∧
    (q.qtype = QType.essay →
      processOne questions r = .ok ⟨r.questionId, r.answer, false, 0, r.timeSpent⟩) := by
  refine ⟨?_, ?_, ?_⟩
  · intro ca s htf hca hans
    refine ⟨⟨r.questionId, r.answer, ca.toLower == s.toLower,
      if ca.toLower == s.toLower then (effPoints q : Int) else 0, r.timeSpent⟩, ?_, ?_, ?_⟩
    · simp [processOne, hfind, htf, hca, hans, optToLower, jsToLower]
      rfl
    · simp [eqIgnoringCase]
    · rfl
  · intro ca s hsa hca hans
    refine ⟨⟨r.questionId, r.answer, ca.toLower.trim == s.toLower.trim,
      if ca.toLower.trim == s.toLower.trim then (effPoints q : Int) else 0, r.timeSpent⟩, ?_, ?_, ?_⟩
    · simp [processOne, hfind, hsa, hca, hans, optToLower, jsToLower]
      rfl
    · simp [eqTrimIgnoringCase]
    · rfl
  · intro hes
    simp [processOne, hfind, hes]

/-- A concrete true-false question for the C7 witness. -/
def c7Question : Question :=
  ⟨1, QType.tf, [], some "True", 1⟩

/-- A concrete raw answer for the C7 witness. -/
def c7Raw : RawAnswer :=
  ⟨1, JSValue.vstr "TRUE", 3⟩

/-- Witness for C7 at a concrete true-false question and answer. -/
theorem C7_grading_rules_witness :
    findQuestion [c7Question] c7Raw.questionId = some c7Question ∧
    ∃ a, processOne [c7Question] c7Raw = .ok a ∧
      (a.isCorrect = true ↔ eqIgnoringCase "True" "TRUE") ∧
      a.points = (if a.isCorrect then (effPoints c7Question : Int) else 0) :=
  ⟨by decide,
   (C7_grading_rules [c7Question] c7Question c7Raw (by decide)).1 "True" "TRUE" rfl rfl rfl⟩

/-! ## Claim C5: leaderboard ranking -/

theorem lbLE_trans (a b c : LBEntry) (hab : lbLE a b = true) (hbc : lbLE b c = true) :
    lbLE a c = true := by
  unfold lbLE at *
  by_cases h1 : a.score = b.score
  · by_cases h2 : b.score = c.score
    · have hab' : a.completionTime ≤ b.completionTime := by simpa [h1] using hab
      have hbc' : b.completionTime ≤ c.completionTime := by simpa [h2] using hbc
      simp [h1.trans h2]
      omega
    · have hbc' : c.score < b.score := by simpa [h2] using hbc
      have h3 : ¬ a.score = c.score := fun hh => h2 (h1.symm.trans hh)
      simp [h3]
      omega
  · by_cases h2 : b.score = c.score
    · have hab' : b.score < a.score := by simpa [h1] using hab
      have h3 : ¬ a.score = c.score := fun hh => h1 (hh.trans h2.symm)
      simp [h3]
      omega
    · have hab' : b.score < a.score := by simpa [h1] using hab
      have hbc' : c.score < b.score := by simpa [h2] using hbc
      have h3 : ¬ a.score = c.score := by omega
      simp [h3]
      omega

theorem lbLE_total (a b : LBEntry) : (lbLE a b || lbLE b a) = true := by
  unfold lbLE
  by_cases h : a.score = b.score
  · rw [h]
    simp
    omega
  · have h' : ¬ b.score = a.score := fun hh => h hh.symm
    simp [h, h']

/-- Spec-side ordering of the leaderboard: score descending, completion time
ascending on ties (faster wins). -/
def lbOrdered (a b : LBEntry) : Prop :=
  b.score < a.score ∨ (a.score = b.score ∧ a.completionTime ≤ b.completionTime)

theorem lbLE_iff (a b : LBEntry) : lbLE a b = true ↔ lbOrdered a b := by
  unfold lbLE lbOrdered
  by_cases h : a.score = b.score
  · simp [h]
  · simp [h]

theorem assignRanksFrom_mem {b : LBEntry} :
    ∀ (i : Nat) (l : List LBEntry), b ∈ assignRanksFrom i l →
      ∃ x ∈ l, ∃ j : Nat, b = { x with rank := j } := by
  intro i l
  induction l generalizing i with
  | nil => intro h; simp [assignRanksFrom] at h
  | cons a rest ih =>
      intro h
      rcases List.mem_cons.mp h with h1 | h2
      · exact ⟨a, List.mem_cons_self a rest, i + 1, h1⟩
      · obtain ⟨x, hx, j, hj⟩ := ih (i + 1) h2
        exact ⟨x, List.mem_cons_of_mem a hx, j, hj⟩

theorem assignRanksFrom_pairwise {R : LBEntry → LBEntry → Prop}
    (hR : ∀ a b (i j : Nat), R a b → R { a with rank := i } { b with rank := j }) :
    ∀ (i : Nat) (l : List LBEntry), List.Pairwise R l →
      List.Pairwise R (assignRanksFrom i l) := by
  intro i l
  induction l generalizing i with
  | nil => intro _; exact List.Pairwise.nil
  | cons a rest ih =>
      intro h
      rcases List.pairwise_cons.mp h with ⟨h1, h2⟩
      refine List.pairwise_cons.mpr ⟨?_, ih (i + 1) h2⟩
      intro b hb
      obtain ⟨x, hx, j, hj⟩ := assignRanksFrom_mem (i + 1) rest hb
      subst hj
      exact hR a x (i + 1) j (h1 x hx)

theorem assignRanksFrom_idem :
    ∀ (i : Nat) (l : List LBEntry), assignRanksFrom i (assignRanksFrom i l) = assignRanksFrom i l := by
  intro i l
  induction l generalizing i with
  | nil => rfl
  | cons a rest ih => simp [assignRanksFrom, ih (i + 1)]

theorem assignRanksFrom_ranks :
    ∀ (i : Nat) (l : List LBEntry),
      (assignRanksFrom i l).map (fun e => e.rank) = List.range' (i + 1) l.length := by
  intro i l
  induction l generalizing i with
  | nil => rfl
  | cons a rest ih => simp [assignRanksFrom, ih (i + 1), List.range'_succ]

/-- C5 (confirmed): `updateLeaderboard` orders the entries by score descending
with completion time ascending breaking ties, assigns dense ranks `1..N` in that
order, and is idempotent. -/
theorem C5_recompute_ranking (lb : List LBEntry) :
    List.Pairwise lbOrdered (updateLeaderboard lb) ∧
    (updateLeaderboard lb).map (fun e => e.rank) = List.range' 1 lb.length ∧
    updateLeaderboard (updateLeaderboard lb) = updateLeaderboard lb := by
  have hsorted : List.Pairwise (fun a b => lbLE a b = true) (lb.mergeSort lbLE) :=
    List.sorted_mergeSort lbLE_trans lbLE_total lb
  refine ⟨?_, ?_, ?_⟩
  · have h1 : List.Pairwise (fun a b => lbLE a b = true) (assignRanksFrom 0 (lb.mergeSort lbLE)) :=
      assignRanksFrom_pairwise (fun a b i j h => h) 0 _ hsorted
    exact h1.imp (fun h => (lbLE_iff _ _).mp h)
  · show (assignRanksFrom 0 (lb.mergeSort lbLE)).map (fun e => e.rank) = List.range' 1 lb.length
    rw [assignRanksFrom_ranks, List.length_mergeSort]
  · show updateLeaderboard (assignRanks (lb.mergeSort lbLE)) = assignRanks (lb.mergeSort lbLE)
    unfold updateLeaderboard assignRanks
    rw [List.mergeSort_of_sorted
      (assignRanksFrom_pairwise (fun a b i j h => h) 0 _ hsorted)]
    exact assignRanksFrom_idem 0 _

/-! ## Claim C4: leaderboard upsert -/

theorem updateFirstEntry_eq_self (student : Nat) (f : LBEntry → LBEntry) :
    ∀ (l : List LBEntry) (e : LBEntry),
      l.find? (fun x => x.user == student) = some e → f e = e →
      updateFirstEntry student f l = l := by
  intro l
  induction l with
  | nil => intro e h; simp at h
  | cons a rest ih =>
      intro e hfind hf
      by_cases h : (a.user == student) = true
      · simp only [List.find?_cons, h] at hfind
        obtain rfl : a = e := by injection hfind
        simp [updateFirstEntry, h, hf]
      · rw [Bool.not_eq_true] at h
        simp only [List.find?_cons, h] at hfind
        simp only [updateFirstEntry]
        rw [if_neg (by simp [h]), ih e hfind hf]

theorem updateFirstEntry_decomp (student : Nat) (f : LBEntry → LBEntry) :
    ∀ (l : List LBEntry) (e : LBEntry),
      l.find? (fun x => x.user == student) = some e →
      ∃ pre post, l = pre ++ e :: post ∧ (∀ x ∈ pre, (x.user == student) = false) ∧
        updateFirstEntry student f l = pre ++ f e :: post := by
  intro l
  induction l with
  | nil => intro e h; simp at h
  | cons a rest ih =>
      intro e hfind
      by_cases h : (a.user == student) = true
      · simp only [List.find?_cons, h] at hfind
        obtain rfl : a = e := by injection hfind
        exact ⟨[], rest, rfl, by simp, by simp [updateFirstEntry, h]⟩
      · rw [Bool.not_eq_true] at h
        simp only [List.find?_cons, h] at hfind
        obtain ⟨pre, post, hl, hpre, hupd⟩ := ih e hfind
        refine ⟨a :: pre, post, by simp [hl], ?_, ?_⟩
        · intro x hx
          rcases List.mem_cons.mp hx with rfl | hx'
          · exact h
          · exact hpre x hx'
        · simp only [updateFirstEntry]
          rw [if_neg (by simp [h]), hupd]
          rfl

theorem updateFirstEntry_countP_user (student u : Nat) (f : LBEntry → LBEntry)
    (huser : ∀ e, (f e).user = e.user) :
    ∀ l : List LBEntry,
      (updateFirstEntry student f l).countP (fun x => x.user == u) =
        l.countP (fun x => x.user == u) := by
  intro l
  induction l with
  | nil => rfl
  | cons a rest ih =>
      simp only [updateFirstEntry]
      by_cases h : a.user == student
      · rw [if_pos h]
        simp [List.countP_cons, huser]
      · rw [if_neg h]
        simp [List.countP_cons, ih]

/-- C4 (confirmed): for a student with an existing leaderboard entry,
`submitCompetitionEntry`'s upsert replaces the stored entry iff the new
submission percentage is strictly greater; a smaller-or-equal percentage leaves
the whole leaderboard unchanged; and the per-user entry count never changes, so
a student never gains a second entry. -/
theorem C4_upsert_monotonic_best (lb : List LBEntry) (student sid : Nat) (sub : Submission)
    (e : LBEntry) (hfind : lb.find? (fun x => x.user == student) = some e) :
    (sub.scorePercentage ≤ e.percentage → upsertEntry lb student sid sub = lb) ∧
    (e.percentage < sub.scorePercentage →
      ∃ pre post, lb = pre ++ e :: post ∧ (∀ x ∈ pre, (x.user == student) = false) ∧
        upsertEntry lb student sid sub =
          pre ++ { e with score := sub.scoreTotal, percentage := sub.scorePercentage,
                          completionTime := sub.totalTime, submission := sid,
                          completedAt := sub.endTime } :: post) ∧
    (∀ u, (upsertEntry lb student sid sub).countP (fun x => x.user == u) =
          lb.countP (fun x => x.user == u)) := by
  have hup : upsertEntry lb student sid sub =
      updateFirstEntry student
        (fun x =>
          if sub.scorePercentage > x.percentage then
            { x with score := sub.scoreTotal, percentage := sub.scorePercentage,
                     completionTime := sub.totalTime, submission := sid,
                     completedAt := sub.endTime }
          else x)
        lb := by
    unfold upsertEntry
    rw [hfind]
  refine ⟨?_, ?_, ?_⟩
  · intro hle
    rw [hup]
    exact updateFirstEntry_eq_self student _ lb e hfind (by rw [if_neg (by omega)])
  · intro hlt
    obtain ⟨pre, post, hl, hpre, hupd⟩ := updateFirstEntry_decomp student
      (fun x =>
        if sub.scorePercentage > x.percentage then
          { x with score := sub.scoreTotal, percentage := sub.scorePercentage,
                   completionTime := sub.totalTime, submission := sid,
                   completedAt := sub.endTime }
        else x)
      lb e hfind
    refine ⟨pre, post, hl, hpre, ?_⟩
    rw [hup, hupd, if_pos (by omega)]
  · intro u
    rw [hup]
    exact updateFirstEntry_countP_user student u _ (fun x => by split <;> rfl) lb

/-- Fixture leaderboard for the C4 witness. -/
def c4Entry : LBEntry :=
  ⟨7, 40, 8, 80, 100, none, 1⟩

/-- Fixture submission (percentage 80, a tie) for the C4 witness. -/
def c4Sub : Submission :=
  ⟨41, 5, 7, [], 8, 80, "B", 0, some 90000, 90, 3600, .evaluated, true,
   none, some 90000, none, none, false, none, none, .pending, none, none, none⟩

/-- Witness for C4: a tying resubmission leaves the stored entry unchanged. -/
theorem C4_upsert_monotonic_best_witness :
    c4Sub.scorePercentage ≤ c4Entry.percentage ∧
    upsertEntry [c4Entry] 7 41 c4Sub = [c4Entry] :=
  ⟨by decide,
   (C4_upsert_monotonic_best [c4Entry] 7 41 c4Sub c4Entry (by decide)).1 (by decide)⟩

/-! ## Claim C6: time-limit enforcement without mutation -/

/-- C6 (confirmed): for an in-progress submission with a positive time limit,
`submitQuiz` fails with the time-exceeded error whenever the elapsed time
(`Math.floor((now - startTime)/1000)` seconds, as the source computes it)
exceeds `timing.timeLimit`, and the store is returned unchanged: no field of
the submission is mutated or persisted. -/
theorem C6_time_exceeded_no_mutation (db : DB) (qz : Quiz) (student submissionId : Nat)
    (raw : List RawAnswer) (now : Int) (sub : Submission)
    (hfind : db.subs.find? (fun s =>
      s.sid == submissionId && s.student == student && s.status == SStatus.inProgress) =
        some sub)
    (hpos : 0 < sub.timeLimit)
    (hlate : sub.timeLimit < (now - sub.startTime) / 1000) :
    submitQuiz db qz student submissionId raw now = (.error .timeExceeded, db) := by
  have h1 : sub.timeLimit ≠ 0 := by omega
  simp [submitQuiz, hfind, h1, hlate]

/-- Fixture submission for the C6 witness: started at epoch 0 with a one-hour
limit. -/
def c6Sub : Submission :=
  ⟨50, 5, 7, [], 0, 0, "F", 0, none, 0, 3600, .inProgress, false,
   none, none, none, none, false, none, none, .pending, none, none, none⟩

/-- Fixture quiz for the C6 witness. -/
def c6Quiz : Quiz :=
  ⟨5, [], 1, [], .published, ⟨60, false, true, 60⟩, none, none⟩

/-- Witness for C6: submitting 3700 seconds into a 3600-second attempt fails
with the time-exceeded error and leaves the store untouched. -/
theorem C6_time_exceeded_no_mutation_witness :
    0 < c6Sub.timeLimit ∧ c6Sub.timeLimit < ((3700000 : Int) - c6Sub.startTime) / 1000 ∧
    submitQuiz ⟨[c6Sub]⟩ c6Quiz 7 50 [] 3700000 = (.error .timeExceeded, ⟨[c6Sub]⟩) :=
  ⟨by decide, by decide,
   C6_time_exceeded_no_mutation ⟨[c6Sub]⟩ c6Quiz 7 50 [] 3700000 c6Sub
     (by decide) (by decide) (by decide)⟩

/-! ## Claim C10: grading is not total over the answer domain -/

/-- Fixture: a true-false question with a stored correct answer. -/
def c10TfQ : Question :=
  ⟨1, QType.tf, [], some "True", 1⟩

/-- Fixture: a true-false question whose `correctAnswer` is absent. -/
def c10TfNoCA : Question :=
  ⟨1, QType.tf, [], none, 1⟩

/-- Fixture: a well-formed request answer carrying an array value. -/
def c10RawArr : RawAnswer :=
  ⟨1, JSValue.varr ["a"], 0⟩

/-- Fixture: a well-formed request answer carrying a string value. -/
def c10RawStr : RawAnswer :=
  ⟨1, JSValue.vstr "true", 0⟩

/-- C10 (confirmed): grading is not total over the declared `Mixed` answer
domain.  Whenever the per-answer grading loop throws (`processAnswers` returns
an error), `submitQuiz` surfaces the untyped thrown `TypeError` — distinct from
every typed failure — and the store is returned unchanged, because the throw
happens before any save.  Concretely, a true-false question graded against a
non-string (array) answer throws, and so does a true-false question whose
`correctAnswer` is absent even on a string answer. -/
theorem C10_grading_throws_before_save :
    (∀ (db : DB) (qz : Quiz) (student submissionId : Nat) (raw : List RawAnswer)
       (now : Int) (sub : Submission),
      db.subs.find? (fun s =>
        s.sid == submissionId && s.student == student && s.status == SStatus.inProgress) =
          some sub →
      (sub.timeLimit != 0 && decide ((now - sub.startTime) / 1000 > sub.timeLimit)) = false →
      processAnswers qz.questions raw = .error () →
      submitQuiz db qz student submissionId raw now = (.error .thrownTypeError, db)) ∧
    processOne [c10TfQ] c10RawArr = .error () ∧
    processOne [c10TfNoCA] c10RawStr = .error () := by
  refine ⟨?_, rfl, rfl⟩
  intro db qz student submissionId raw now sub hfind htime hproc
  simp [submitQuiz, hfind, htime, hproc]

/-- Fixture quiz holding the true-false question for the C10 witness. -/
def c10Quiz : Quiz :=
  ⟨5, [c10TfQ], 1, [], .published, ⟨60, false, true, 60⟩, none, none⟩

/-- Fixture in-progress submission for the C10 witness. -/
def c10Sub : Submission :=
  ⟨51, 5, 7, [], 0, 0, "F", 0, none, 0, 3600, .inProgress, false,
   none, none, none, none, false, none, none, .pending, none, none, none⟩

/-- Witness for C10: the array-valued answer makes `submitQuiz` surface the
thrown `TypeError` with the store unchanged. -/
theorem C10_grading_throws_before_save_witness :
    processAnswers c10Quiz.questions [c10RawArr] = .error () ∧
    submitQuiz ⟨[c10Sub]⟩ c10Quiz 7 51 [c10RawArr] 1000 =
      (.error .thrownTypeError, ⟨[c10Sub]⟩) :=
  ⟨rfl,
   C10_grading_throws_before_save.1 ⟨[c10Sub]⟩ c10Quiz 7 51 [c10RawArr] 1000 c10Sub
     (by decide) (by decide) rfl⟩

/-! ## Claim C9: AI-collaborator failure is absorbed by manual evaluation -/

/-- C9 (confirmed): when the AI collaborator call inside `evaluateSubmission`
throws, the failure is absorbed: the submission still reaches status
`evaluated` with `evaluatedBy`, `evaluatedAt` and `feedback` set,
`evaluation.aiInsights` remains unset, and the operation returns success
rather than an error. -/
theorem C9_ai_failure_absorbed (db : DB) (qz : Quiz) (userId : Nat) (isAdmin : Bool)
    (submissionId : Nat) (feedback : Option String) (manualGrades : Option (List ManualGrade))
    (now : Int) (sub : Submission)
    (hfind : db.subs.find? (fun s => s.sid == submissionId) = some sub)
    (hauth : (qz.createdBy != userId && !isAdmin) = false)
    (hnoAI : sub.aiInsights = none) :
    ∃ s', evaluateSubmissionOp db qz userId isAdmin submissionId feedback manualGrades
        (.error ()) now = (.ok s', updateById db sub.sid s') ∧
      s'.status = SStatus.evaluated ∧ s'.evaluatedBy = some userId ∧
      s'.evaluatedAt = some now ∧ s'.feedback = feedback ∧ s'.aiInsights = none := by
  cases manualGrades with
  | none =>
      refine ⟨presave { sub with evaluatedBy := some userId, evaluatedAt := some now,
                                 feedback := feedback, status := SStatus.evaluated },
        ?_, by simp, by simp, by simp, by simp, by simp [hnoAI]⟩
      simp only [evaluateSubmissionOp, hfind]
      rw [if_neg (by simp [hauth])]
      simp [hnoAI]
  | some grades =>
      refine ⟨presave { calculateScore
            { sub with answers := applyManualGrades sub.answers grades } qz.questions with
                          evaluatedBy := some userId, evaluatedAt := some now,
                          feedback := feedback, status := SStatus.evaluated },
        ?_, by simp, by simp, by simp, by simp, by simp [hnoAI]⟩
      simp only [evaluateSubmissionOp, hfind]
      rw [if_neg (by simp [hauth])]
      simp [hnoAI]

/-- Fixture quiz for the C9 witness. -/
def c9Quiz : Quiz :=
  ⟨5, [], 1, [], .published, ⟨60, false, true, 60⟩, none, none⟩

/-- Fixture submitted submission without AI insights for the C9 witness. -/
def c9Sub : Submission :=
  ⟨55, 5, 7, [], 0, 0, "F", 0, some 60000, 60, 3600, .submitted, false,
   none, none, none, none, false, none, none, .pending, none, none, none⟩

/-- Witness for C9: the quiz owner evaluates while the AI call throws; the
evaluation still completes. -/
theorem C9_ai_failure_absorbed_witness :
    (⟨[c9Sub]⟩ : DB).subs.find? (fun s => s.sid == 55) = some c9Sub ∧
    ∃ s', evaluateSubmissionOp ⟨[c9Sub]⟩ c9Quiz 1 false 55 (some "good work") none
        (.error ()) 99 = (.ok s', updateById ⟨[c9Sub]⟩ 55 s') ∧
      s'.status = SStatus.evaluated ∧ s'.evaluatedBy = some 1 ∧
      s'.evaluatedAt = some 99 ∧ s'.feedback = some "good work" ∧ s'.aiInsights = none :=
  ⟨by decide,
   C9_ai_failure_absorbed ⟨[c9Sub]⟩ c9Quiz 1 false 55 (some "good work") none 99 c9Sub
     (by decide) (by decide) rfl⟩

/-! ## Claim C3: the revaluation guard -/

/-- Fixture quiz for C3, owned by user 1. -/
def c3Quiz : Quiz :=
  ⟨5, [], 1, [], .published, ⟨60, false, true, 60⟩, none, none⟩

/-- Fixture submission whose revaluation was already approved (a state the
claim calls terminal): `requested` remains `true` after handling. -/
def c3Sub : Submission :=
  ⟨60, 5, 7, [], 2, 100, "A+", 0, some 60000, 60, 3600, .evaluated, true,
   some 1, some 10, none, none, true, some 20, some "please recheck",
   .approved, some 1, some 30, some "granted"⟩

/-- Counterexample to C3 as stated: `c3Sub.revaluation.status` is `approved`,
yet `handleRevaluation` succeeds again and moves it to `denied`, because the
guard checks only `revaluation.requested`, never `revaluation.status =
pending`.  So approved/denied are not terminal states. -/
theorem C3_terminal_state_cex :
    c3Sub.revalStatus = RStatus.approved ∧
    ((handleRevaluation ⟨[c3Sub]⟩ c3Quiz 1 false 60 RStatus.denied none none 99).1.toOption.map
      (fun s => s.revalStatus)) = some RStatus.denied := by
  exact ⟨rfl, rfl⟩

/-- C3 (corrected): `handleRevaluation` succeeds exactly when
`revaluation.requested` is `true` (given the submission is found and the caller
is authorized); it never inspects `revaluation.status`, and on success it sets
`revaluation.status := decision` whatever the previous status was — including
`approved` and `denied`, which are therefore not terminal. -/
theorem C3_reval_guard_amended (db : DB) (qz : Quiz) (userId : Nat) (isAdmin : Bool)
    (submissionId : Nat) (decision : RStatus) (response : Option String)
    (newGrades : Option (List ManualGrade)) (now : Int) (sub : Submission)
    (hfind : db.subs.find? (fun s => s.sid == submissionId) = some sub)
    (hauth : (qz.createdBy != userId && !isAdmin) = false) :
    (sub.revalRequested = false →
      handleRevaluation db qz userId isAdmin submissionId decision response newGrades now =
        (.error .noRequest, db)) ∧
    (sub.revalRequested = true →
      ∃ s', handleRevaluation db qz userId isAdmin submissionId decision response newGrades now =
        (.ok s', updateById db sub.sid s') ∧ s'.revalStatus = decision) := by
  constructor
  · intro hreq
    simp only [handleRevaluation, hfind]
    rw [if_neg (by simp [hauth]), if_pos (by simp [hreq])]
  · intro hreq
    cases decision <;> cases newGrades <;>
      (simp only [handleRevaluation, hfind]
       rw [if_neg (by simp [hauth]), if_neg (by simp [hreq])]
       exact ⟨_, rfl, by simp⟩)

/-- Witness for the amended C3 at the approved fixture: handling again
succeeds and rewrites the status to `denied`. -/
theorem C3_reval_guard_amended_witness :
    c3Sub.revalRequested = true ∧
    ∃ s', handleRevaluation ⟨[c3Sub]⟩ c3Quiz 1 false 60 RStatus.denied none none 99 =
      (.ok s', updateById ⟨[c3Sub]⟩ 60 s') ∧ s'.revalStatus = RStatus.denied :=
  ⟨rfl,
   (C3_reval_guard_amended ⟨[c3Sub]⟩ c3Quiz 1 false 60 RStatus.denied none none 99 c3Sub
     (by decide) (by decide)).2 rfl⟩

/-! ## Claim C1: the percentage denominator of `calculateScore` -/

/-- Claim-side definition, following the spec words: the sum of `points` over
ALL questions of the quiz. -/
def totalPossibleAll (questions : List Question) : Int :=
  (questions.map (fun q => (q.points : Int))).sum

/-- Fixture: first one-point true-false question. -/
def c1Q1 : Question :=
  ⟨1, QType.tf, [], some "True", 1⟩

/-- Fixture: second one-point true-false question, left unanswered. -/
def c1Q2 : Question :=
  ⟨2, QType.tf, [], some "False", 1⟩

/-- Fixture: a submission answering only the first question, correctly. -/
def c1Sub : Submission :=
  ⟨70, 5, 7, [⟨1, JSValue.vstr "true", true, 1, 0⟩], 0, 0, "F", 0, none, 0, 3600,
   .inProgress, false, none, none, none, none, false, none, none, .pending,
   none, none, none⟩

/-- Counterexample to C1 as stated: the quiz carries total possible points
`P = 2 > 0` and the earned total is 1, so the claim prescribes
`round(100·1/2) = 50`; but `calculateScore` only counts questions matched by a
submitted answer in its denominator and yields 100. -/
theorem C1_percentage_denominator_cex :
    totalPossibleAll [c1Q1, c1Q2] = 2 ∧
    (calculateScore c1Sub [c1Q1, c1Q2]).scoreTotal = 1 ∧
    jsRound (100 * (calculateScore c1Sub [c1Q1, c1Q2]).scoreTotal)
      (totalPossibleAll [c1Q1, c1Q2]) = 50 ∧
    (calculateScore c1Sub [c1Q1, c1Q2]).scorePercentage = 100 ∧
    (calculateScore c1Sub [c1Q1, c1Q2]).scorePercentage ≠
      jsRound (100 * (calculateScore c1Sub [c1Q1, c1Q2]).scoreTotal)
        (totalPossibleAll [c1Q1, c1Q2]) := by
  refine ⟨by decide, by decide, by decide, by decide, by decide⟩

/-- Per-answer contribution to the `totalPoints` accumulator of
`calculateScore`. -/
def contribTotal (questions : List Question) (a : Answer) : Int :=
  match findQuestion questions a.questionId with
  | some q => (effPoints q : Int)
  | none => 0

/-- Per-answer contribution to the `earnedPoints` accumulator of
`calculateScore`. -/
def contribEarned (questions : List Question) (a : Answer) : Int :=
  match findQuestion questions a.questionId with
  | some q =>
      if a.isCorrect then (if a.points = 0 then (effPoints q : Int) else a.points) else 0
  | none => 0

theorem scoreFold_aux (questions : List Question) :
    ∀ (answers : List Answer) (acc : Int × Int),
      answers.foldl
        (fun acc a =>
          match findQuestion questions a.questionId with
          | some q =>
              (acc.1 + (effPoints q : Int),
               if a.isCorrect then
                 acc.2 + (if a.points = 0 then (effPoints q : Int) else a.points)
               else acc.2)
          | none => acc)
        acc =
      (acc.1 + (answers.map (contribTotal questions)).sum,
       acc.2 + (answers.map (contribEarned questions)).sum) := by
  intro answers
  induction answers with
  | nil => intro acc; simp
  | cons a rest ih =>
      intro acc
      rcases h : findQuestion questions a.questionId with _ | q
      · simp only [List.foldl_cons, h]
        rw [ih]
        simp [contribTotal, contribEarned, h]
      · simp only [List.foldl_cons, h]
        rw [ih]
        cases hic : a.isCorrect
        · simp [contribTotal, contribEarned, h, hic]
          ring
        · simp [contribTotal, contribEarned, h, hic]
          exact ⟨by ring, by ring⟩

theorem scoreFold_eq_sums (questions : List Question) (answers : List Answer) :
    scoreFold questions answers =
      ((answers.map (contribTotal questions)).sum,
       (answers.map (contribEarned questions)).sum) := by
  unfold scoreFold
  rw [scoreFold_aux]
  simp

theorem sum_filter_or_disjoint {α : Type} (p q : α → Bool) (f : α → Int) :
    ∀ l : List α, (∀ x ∈ l, ¬(p x = true ∧ q x = true)) →
      ((l.filter (fun x => p x || q x)).map f).sum =
        ((l.filter p).map f).sum + ((l.filter q).map f).sum := by
  intro l
  induction l with
  | nil => intro _; simp
  | cons a rest ih =>
      intro hdisj
      have hrest := ih (fun x hx => hdisj x (List.mem_cons_of_mem a hx))
      by_cases hp : p a = true
      · have hq : ¬ q a = true := fun hq => hdisj a (List.mem_cons_self a rest) ⟨hp, hq⟩
        simp only [List.filter_cons, hp, hq]
        simp [hp, hq, hrest]
        ring
      · by_cases hq : q a = true
        · simp only [List.filter_cons]
          simp [hp, hq, hrest]
          ring
        · simp only [List.filter_cons]
          simp [hp, hq, hrest]

theorem sum_filter_single (qid : Nat) :
    ∀ questions : List Question, (questions.map (fun q => q.qid)).Nodup →
      ((questions.filter (fun q => qid == q.qid)).map (fun q => (effPoints q : Int))).sum =
        contribTotal questions ⟨qid, JSValue.vundef, false, 0, 0⟩ := by
  intro questions
  induction questions with
  | nil => intro _; simp [contribTotal, findQuestion]
  | cons q0 rest ih =>
      intro hnodup
      have hnotin : q0.qid ∉ rest.map (fun q => q.qid) := (List.nodup_cons.mp hnodup).1
      have htail := ih (List.nodup_cons.mp hnodup).2
      by_cases h : qid = q0.qid
      · have hb : (qid == q0.qid) = true := by simp [h]
        have hb' : (q0.qid == qid) = true := by simp [h]
        have hrest : rest.filter (fun q => qid == q.qid) = [] := by
          rw [List.filter_eq_nil_iff]
          intro q hq hqb
          exact hnotin (by
            have : q.qid = q0.qid := by
              have : qid = q.qid := by simpa using hqb
              omega
            rw [← this]
            exact List.mem_map_of_mem (fun q : Question => q.qid) hq)
        simp only [List.filter_cons, hb, if_pos]
        simp [hrest, contribTotal, findQuestion, List.find?_cons, hb']
      · have hb : (qid == q0.qid) = false := by simp [h]
        have hb' : (q0.qid == qid) = false := by simp; omega
        simp only [List.filter_cons, hb]
        simp only [Bool.false_eq_true, if_false]
        rw [htail]
        simp [contribTotal, findQuestion, List.find?_cons, hb']

/-- Amended claim-side denominator: the sum of points (with the `|| 1`
coalescing) over the quiz questions matched by some submitted answer. -/
def matchedTotal (questions : List Question) (answers : List Answer) : Int :=
  ((questions.filter (fun q => answers.any (fun a => a.questionId == q.qid))).map
    (fun q => (effPoints q : Int))).sum

/-- Claim-side earned total: the sum of the awarded points over the correct
answers matched to a question. -/
def earnedSum (questions : List Question) (answers : List Answer) : Int :=
  ((answers.filter (fun a => (findQuestion questions a.questionId).isSome && a.isCorrect)).map
    (fun a => a.points)).sum

theorem matchedTotal_eq (questions : List Question) :
    ∀ answers : List Answer,
      (answers.map (fun a => a.questionId)).Nodup →
      (questions.map (fun q => q.qid)).Nodup →
      matchedTotal questions answers = (answers.map (contribTotal questions)).sum := by
  intro answers
  induction answers with
  | nil => intro _ _; simp [matchedTotal]
  | cons a rest ih =>
      intro hA hQ
      have hnotin : a.questionId ∉ rest.map (fun b => b.questionId) :=
        (List.nodup_cons.mp hA).1
      unfold matchedTotal
      have hpred : (fun q : Question => (a :: rest).any (fun b => b.questionId == q.qid)) =
          (fun q : Question => (a.questionId == q.qid) ||
            rest.any (fun b => b.questionId == q.qid)) := by
        funext q
        simp [List.any_cons]
      rw [hpred]
      rw [sum_filter_or_disjoint (fun q => a.questionId == q.qid)
        (fun q => rest.any (fun b => b.questionId == q.qid))
        (fun q => (effPoints q : Int)) questions ?disj]
      case disj =>
        intro q _ hconj
        obtain ⟨h1, h2⟩ := hconj
        have h1' : a.questionId = q.qid := by simpa using h1
        obtain ⟨b, hb, hbq⟩ := List.any_eq_true.mp h2
        have hbq' : b.questionId = q.qid := by simpa using hbq
        exact hnotin (by
          rw [show a.questionId = b.questionId by omega]
          exact List.mem_map_of_mem (fun b : Answer => b.questionId) hb)
      rw [sum_filter_single a.questionId questions hQ]
      rw [show matchedTotal questions rest =
        ((questions.filter (fun q => rest.any (fun b => b.questionId == q.qid))).map
          (fun q => (effPoints q : Int))).sum from rfl] at ih
      rw [ih (List.nodup_cons.mp hA).2 hQ]
      simp [contribTotal]

theorem earnedSum_eq (questions : List Question) :
    ∀ answers : List Answer,
      (∀ a ∈ answers, a.isCorrect = true → a.points ≠ 0) →
      earnedSum questions answers = (answers.map (contribEarned questions)).sum := by
  intro answers
  induction answers with
  | nil => intro _; simp [earnedSum]
  | cons a rest ih =>
      intro hgood
      have htail := ih (fun b hb => hgood b (List.mem_cons_of_mem a hb))
      unfold earnedSum
      rcases h : findQuestion questions a.questionId with _ | q
      · simp only [List.filter_cons, h]
        simp only [Option.isSome_none, Bool.false_and, Bool.false_eq_true, if_false]
        rw [show earnedSum questions rest =
          ((rest.filter (fun b =>
            (findQuestion questions b.questionId).isSome && b.isCorrect)).map
            (fun b => b.points)).sum from rfl] at htail
        rw [htail]
        simp [contribEarned, h]
      · cases hic : a.isCorrect
        · simp only [List.filter_cons, h, hic]
          simp only [Bool.and_false, Bool.false_eq_true, if_false]
          rw [show earnedSum questions rest =
            ((rest.filter (fun b =>
              (findQuestion questions b.questionId).isSome && b.isCorrect)).map
              (fun b => b.points)).sum from rfl] at htail
          rw [htail]
          simp [contribEarned, h, hic]
        · have hpt : a.points ≠ 0 := hgood a (List.mem_cons_self a rest) hic
          simp only [List.filter_cons, h, hic]
          simp only [Option.isSome_some, Bool.and_true, Bool.true_and, if_pos]
          rw [show earnedSum questions rest =
            ((rest.filter (fun b =>
              (findQuestion questions b.questionId).isSome && b.isCorrect)).map
              (fun b => b.points)).sum from rfl] at htail
          simp only [List.map_cons, List.sum_cons]
          rw [htail]
          simp [contribEarned, h, hic, hpt]

/-- C1 (amended): for a submission whose answers carry pairwise-distinct
question ids (and a quiz with distinct question ids, as Mongo guarantees for
subdocument ids), `calculateScore` sets `score.total` to the sum of earned
points over the matched correct answers, and `score.percentage` to
`round(100·total/P)` where `P` is the sum of points over the quiz questions
MATCHED BY A SUBMITTED ANSWER — not over all questions of the quiz — and 0
when that matched total is 0. -/
theorem C1_compute_score_amended (s : Submission) (questions : List Question)
    (hA : (s.answers.map (fun a => a.questionId)).Nodup)
    (hQ : (questions.map (fun q => q.qid)).Nodup)
    (hgood : ∀ a ∈ s.answers, a.isCorrect = true → a.points ≠ 0) :
    (calculateScore s questions).scoreTotal = earnedSum questions s.answers ∧
    (calculateScore s questions).scorePercentage =
      (if 0 < matchedTotal questions s.answers then
        jsRound (100 * earnedSum questions s.answers) (matchedTotal questions s.answers)
       else 0) := by
  have hfold := scoreFold_eq_sums questions s.answers
  have hmt := matchedTotal_eq questions s.answers hA hQ
  have hes := earnedSum_eq questions s.answers hgood
  constructor
  · rw [calculateScore_scoreTotal, hfold, hes]
  · rw [calculateScore_scorePercentage, hfold, hes, hmt]

/-- Witness for the amended C1 at the counterexample fixture: one of two
one-point questions answered correctly yields total 1 and percentage 100 (the
matched total is 1). -/
theorem C1_compute_score_amended_witness :
    (calculateScore c1Sub [c1Q1, c1Q2]).scoreTotal = earnedSum [c1Q1, c1Q2] c1Sub.answers ∧
    (calculateScore c1Sub [c1Q1, c1Q2]).scorePercentage =
      (if 0 < matchedTotal [c1Q1, c1Q2] c1Sub.answers then
        jsRound (100 * earnedSum [c1Q1, c1Q2] c1Sub.answers)
          (matchedTotal [c1Q1, c1Q2] c1Sub.answers)
       else 0) :=
  C1_compute_score_amended c1Sub [c1Q1, c1Q2] (by decide) (by decide) (by decide)

/-! ## Claim C8: percentage range and the grade function -/

theorem processOne_points_spec (questions : List Question) (r : RawAnswer) (a : Answer)
    (h : processOne questions r = .ok a) :
    (a.isCorrect = true →
      ∃ q, findQuestion questions a.questionId = some q ∧ a.points = (effPoints q : Int)) ∧
    (a.isCorrect = false → a.points = 0) := by
  unfold processOne at h
  split at h
  · injection h with h1
    subst h1
    exact ⟨fun hc => by simp at hc, fun _ => rfl⟩
  · rename_i q hfq
    split at h
    · injection h with h1
      subst h1
      refine ⟨fun hc => ⟨q, by simpa using hfq, by simp at hc; simp [hc]⟩,
        fun hc => by simp at hc; simp [hc]⟩
    · rcases hca : q.correctAnswer with _ | ca
      all_goals rw [hca] at h
      · injection h
      · rcases hans : r.answer with s | el | _ | n | b | _
        all_goals rw [hans] at h
        case vstr =>
          injection h with h1
          subst h1
          refine ⟨fun hc => ⟨q, by simpa using hfq, by simp at hc; simp [hc]⟩,
            fun hc => by simp at hc; simp [hc]⟩
        all_goals injection h
    · rcases hca : q.correctAnswer with _ | ca
      all_goals rw [hca] at h
      · injection h
      · rcases hans : r.answer with s | el | _ | n | b | _
        all_goals rw [hans] at h
        case vstr =>
          injection h with h1
          subst h1
          refine ⟨fun hc => ⟨q, by simpa using hfq, by simp at hc; simp [hc]⟩,
            fun hc => by simp at hc; simp [hc]⟩
        all_goals injection h
    · injection h with h1
      subst h1
      exact ⟨fun hc => by simp at hc, fun _ => rfl⟩

theorem processAnswers_spec (questions : List Question) :
    ∀ (raw : List RawAnswer) (answers : List Answer),
      processAnswers questions raw = .ok answers →
      ∀ a ∈ answers,
        (a.isCorrect = true →
          ∃ q, findQuestion questions a.questionId = some q ∧
            a.points = (effPoints q : Int)) ∧
        (a.isCorrect = false → a.points = 0) := by
  intro raw
  induction raw with
  | nil =>
      intro answers h a ha
      unfold processAnswers at h
      simp only [List.mapM_nil] at h
      injection h with h1
      subst h1
      simp at ha
  | cons r rest ih =>
      intro answers h a ha
      unfold processAnswers at h
      rw [List.mapM_cons] at h
      rcases hr : processOne questions r with e | a0
      · rw [hr] at h
        injection h
      · rw [hr] at h
        rcases hrest : rest.mapM (processOne questions) with e | as0
        · rw [hrest] at h
          injection h
        · rw [hrest] at h
          injection h with h1
          subst h1
          rcases List.mem_cons.mp ha with rfl | hmem
          · exact processOne_points_spec questions r a hr
          · exact ih as0 hrest a hmem

/-- The invariant the operations maintain on answer subdocuments: any answer
marked correct carries strictly positive points. -/
def GoodAnswers (answers : List Answer) : Prop :=
  ∀ a ∈ answers, a.isCorrect = true → 0 < a.points

theorem effPoints_pos (q : Question) : 1 ≤ effPoints q := by
  unfold effPoints
  split <;> omega

theorem processAnswers_goodAnswers (questions : List Question) (raw : List RawAnswer)
    (answers : List Answer) (h : processAnswers questions raw = .ok answers) :
    GoodAnswers answers := by
  intro a ha hic
  obtain ⟨q, _, hpts⟩ := (processAnswers_spec questions raw answers h a ha).1 hic
  have := effPoints_pos q
  omega

theorem contribEarned_nonneg (questions : List Question) (a : Answer)
    (hpt : a.isCorrect = true → 0 < a.points) :
    0 ≤ contribEarned questions a := by
  unfold contribEarned
  rcases h : findQuestion questions a.questionId with _ | q
  · exact le_refl 0
  · cases hic : a.isCorrect
    · simp
    · have hp := hpt hic
      by_cases hz : a.points = 0
      · simp [hz]
      · simp [hz]
        omega

theorem scoreFold_earned_nonneg (questions : List Question) (answers : List Answer)
    (hgood : GoodAnswers answers) : 0 ≤ (scoreFold questions answers).2 := by
  rw [scoreFold_eq_sums]
  refine List.sum_nonneg ?_
  intro x hx
  obtain ⟨a, ha, rfl⟩ := List.mem_map.mp hx
  exact contribEarned_nonneg questions a (hgood a ha)

theorem contribEarned_le_contribTotal (questions : List Question) (a : Answer)
    (hspec :
      (a.isCorrect = true →
        ∃ q, findQuestion questions a.questionId = some q ∧
          a.points = (effPoints q : Int)) ∧
      (a.isCorrect = false → a.points = 0)) :
    contribEarned questions a ≤ contribTotal questions a := by
  unfold contribEarned contribTotal
  rcases h : findQuestion questions a.questionId with _ | q
  · exact le_refl 0
  · cases hic : a.isCorrect
    · simp
    · obtain ⟨q', hq', hpts⟩ := hspec.1 hic
      rw [h] at hq'
      injection hq' with hq''
      subst hq''
      have hpos : (1 : Int) ≤ (effPoints q : Int) := by exact_mod_cast effPoints_pos q
      have hz : a.points ≠ 0 := by omega
      simp [hz, hpts]

theorem scoreFold_earned_le_total (questions : List Question) (answers : List Answer)
    (hspec : ∀ a ∈ answers,
      (a.isCorrect = true →
        ∃ q, findQuestion questions a.questionId = some q ∧
          a.points = (effPoints q : Int)) ∧
      (a.isCorrect = false → a.points = 0)) :
    (scoreFold questions answers).2 ≤ (scoreFold questions answers).1 := by
  rw [scoreFold_eq_sums]
  exact List.sum_le_sum (fun a ha => contribEarned_le_contribTotal questions a (hspec a ha))

theorem jsRound_nonneg (num den : Int) (h1 : 0 ≤ num) (h2 : 0 < den) :
    0 ≤ jsRound num den :=
  Int.ediv_nonneg (by omega) (by omega)

theorem jsRound_le_100 (e t : Int) (_he : 0 ≤ e) (het : e ≤ t) (ht : 0 < t) :
    jsRound (100 * e) t ≤ 100 := by
  unfold jsRound
  have h1 : 2 * (100 * e) + t ≤ 201 * t := by omega
  have h2 : (2 * (100 * e) + t) / (2 * t) ≤ (201 * t) / (2 * t) :=
    Int.ediv_le_ediv (by omega) h1
  have h3 : (201 : Int) * t / (2 * t) = 100 := by
    have hne : (2 : Int) * t ≠ 0 := by omega
    have h4 : (201 : Int) * t = t + 100 * (2 * t) := by ring
    rw [h4, Int.add_mul_ediv_right t 100 hne, Int.ediv_eq_zero_of_lt (by omega) (by omega)]
    simp
  omega

theorem calculateScore_pct_nonneg (s : Submission) (questions : List Question)
    (hgood : GoodAnswers s.answers) :
    0 ≤ (calculateScore s questions).scorePercentage := by
  rw [calculateScore_scorePercentage]
  split
  · next hpos =>
      exact jsRound_nonneg _ _
        (by have := scoreFold_earned_nonneg questions s.answers hgood; omega) hpos
  · exact le_refl 0

theorem updateFirstAnswer_good (g : ManualGrade) :
    ∀ answers : List Answer, GoodAnswers answers →
      GoodAnswers (updateFirstAnswer g answers) := by
  intro answers
  induction answers with
  | nil => intro _; exact fun a ha => absurd ha (by simp [updateFirstAnswer])
  | cons a rest ih =>
      intro hg
      unfold updateFirstAnswer
      by_cases h : (a.questionId == g.questionId) = true
      · rw [if_pos h]
        intro b hb
        rcases List.mem_cons.mp hb with rfl | hmem
        · intro hbc
          simpa using hbc
        · exact hg b (List.mem_cons_of_mem a hmem)
      · rw [if_neg h]
        intro b hb
        rcases List.mem_cons.mp hb with rfl | hmem
        · exact hg _ (List.mem_cons_self _ rest)
        · exact ih (fun c hc => hg c (List.mem_cons_of_mem _ hc)) b hmem

theorem applyManualGrades_good (grades : List ManualGrade) :
    ∀ answers : List Answer, GoodAnswers answers →
      GoodAnswers (applyManualGrades answers grades) := by
  induction grades with
  | nil => intro answers hg; exact hg
  | cons g gs ih =>
      intro answers hg
      unfold applyManualGrades
      rw [List.foldl_cons]
      exact ih (updateFirstAnswer g answers) (updateFirstAnswer_good g answers hg)

@[simp] theorem finishSubmission_scorePercentage (s : Submission) (now : Int) :
    (finishSubmission s now).scorePercentage = s.scorePercentage := rfl

@[simp] theorem finishSubmission_scoreGrade (s : Submission) (now : Int) :
    (finishSubmission s now).scoreGrade = s.scoreGrade := rfl

theorem presave_goal (x : Submission) (h : 0 ≤ x.scorePercentage) :
    (presave x).scoreGrade = gradeOf (presave x).scorePercentage ∧
    0 ≤ (presave x).scorePercentage := by
  rw [presave_scorePercentage, presave_scoreGrade_of_nonneg x h]
  exact ⟨rfl, h⟩

theorem calculateScore_pct_le_100 (s : Submission) (questions : List Question)
    (hspec : ∀ a ∈ s.answers,
      (a.isCorrect = true →
        ∃ q, findQuestion questions a.questionId = some q ∧
          a.points = (effPoints q : Int)) ∧
      (a.isCorrect = false → a.points = 0)) :
    (calculateScore s questions).scorePercentage ≤ 100 := by
  rw [calculateScore_scorePercentage]
  split
  · next hpos =>
      exact jsRound_le_100 _ _ (by
        have := scoreFold_earned_nonneg questions s.answers
          (fun a ha hic => by
            obtain ⟨q, _, hp⟩ := (hspec a ha).1 hic
            have := effPoints_pos q
            omega)
        omega) (scoreFold_earned_le_total questions s.answers hspec) hpos
  · norm_num

theorem submitQuiz_grade_bounds (db : DB) (qz : Quiz) (student submissionId : Nat)
    (raw : List RawAnswer) (now : Int) (s' : Submission)
    (hEq : (submitQuiz db qz student submissionId raw now).1 = .ok s') :
    s'.scoreGrade = gradeOf s'.scorePercentage ∧ 0 ≤ s'.scorePercentage ∧
    s'.scorePercentage ≤ 100 := by
  simp only [submitQuiz] at hEq
  repeat' split at hEq
  any_goals exact Except.noConfusion hEq
  all_goals rename_i answers hpa hag
  all_goals (have h1 := Except.ok.inj hEq; subst h1)
  all_goals
    have hgood : GoodAnswers answers := processAnswers_goodAnswers qz.questions raw answers hpa
  all_goals
    have hspec := processAnswers_spec qz.questions raw answers hpa
  all_goals
    refine ⟨(presave_goal _ ?_).1, (presave_goal _ ?_).2, ?_⟩
  all_goals
    first
      | exact calculateScore_pct_nonneg _ _ hgood
      | (rw [presave_scorePercentage]; exact calculateScore_pct_le_100 _ _ hspec)

theorem evaluateSubmission_grade_bounds (db : DB) (qz : Quiz) (userId : Nat) (isAdmin : Bool)
    (submissionId : Nat) (feedback : Option String) (manualGrades : Option (List ManualGrade))
    (aiResult : Except Unit AIInsights) (now : Int) (sub : Submission) (s' : Submission)
    (hfind : db.subs.find? (fun s => s.sid == submissionId) = some sub)
    (hgood : GoodAnswers sub.answers) (hpct : 0 ≤ sub.scorePercentage)
    (hEq : (evaluateSubmissionOp db qz userId isAdmin submissionId feedback manualGrades
      aiResult now).1 = .ok s') :
    s'.scoreGrade = gradeOf s'.scorePercentage ∧ 0 ≤ s'.scorePercentage := by
  simp only [evaluateSubmissionOp, hfind] at hEq
  repeat' split at hEq
  any_goals exact Except.noConfusion hEq
  all_goals (have h1 := Except.ok.inj hEq; subst h1)
  all_goals
    first
      | exact presave_goal _ hpct
      | exact presave_goal _ (calculateScore_pct_nonneg _ _
          (applyManualGrades_good _ _ hgood))

theorem handleRevaluation_grade_bounds (db : DB) (qz : Quiz) (userId : Nat) (isAdmin : Bool)
    (submissionId : Nat) (decision : RStatus) (response : Option String)
    (newGrades : Option (List ManualGrade)) (now : Int) (sub : Submission) (s' : Submission)
    (hfind : db.subs.find? (fun s => s.sid == submissionId) = some sub)
    (hgood : GoodAnswers sub.answers) (hpct : 0 ≤ sub.scorePercentage)
    (hEq : (handleRevaluation db qz userId isAdmin submissionId decision response
      newGrades now).1 = .ok s') :
    s'.scoreGrade = gradeOf s'.scorePercentage ∧ 0 ≤ s'.scorePercentage := by
  simp only [handleRevaluation, hfind] at hEq
  repeat' split at hEq
  any_goals exact Except.noConfusion hEq
  all_goals (have h1 := Except.ok.inj hEq; subst h1)
  all_goals
    first
      | exact presave_goal _ hpct
      | exact presave_goal _ (calculateScore_pct_nonneg _ _
          (applyManualGrades_good _ _ hgood))

/-- Fixture one-point true-false question for C8. -/
def c8Q : Question :=
  ⟨1, QType.tf, [], some "True", 1⟩

/-- Fixture quiz owned by user 1 for C8. -/
def c8Quiz : Quiz :=
  ⟨5, [c8Q], 1, [], .published, ⟨60, false, true, 60⟩, none, none⟩

/-- Fixture submitted submission (one correct one-point answer) for the C8
counterexample. -/
def c8Sub : Submission :=
  ⟨80, 5, 7, [⟨1, JSValue.vstr "true", true, 1, 0⟩], 1, 100, "A+", 0, some 60000, 60, 3600,
   .submitted, false, none, none, none, none, false, none, none, .pending, none, none, none⟩

/-- Counterexample to C8 as stated: a manual evaluation that awards 200 points
on a one-point question drives `score.percentage` to 20000 — far outside
[0,100] — because `evaluateSubmission` never validates `manualGrades` against
the question points. -/
theorem C8_percentage_range_cex :
    ((evaluateSubmissionOp ⟨[c8Sub]⟩ c8Quiz 1 false 80 none (some [⟨1, 200⟩])
        (.error ()) 99).1.toOption.map (fun s => s.scorePercentage)) = some 20000 ∧
    ¬ ((20000 : Int) ≤ 100) :=
  ⟨rfl, by decide⟩

/-- C8 (amended): after every operation that writes a submission,
`score.grade` equals the fixed threshold function of `score.percentage`, and
the percentage is nonnegative (for the manual paths, given the answers
invariant `GoodAnswers` and a nonnegative stored percentage, both of which all
reachable submissions satisfy).  `score.percentage ≤ 100` additionally holds
for submissions graded by `submitQuiz` (auto grading), but NOT in general
after manual evaluation or revaluation, whose unvalidated grade overrides can
push the percentage above 100. -/
theorem C8_grade_function_amended :
    (∀ (db : DB) (qz : Quiz) (student submissionId : Nat) (raw : List RawAnswer)
       (now : Int) (s' : Submission),
      (submitQuiz db qz student submissionId raw now).1 = .ok s' →
      s'.scoreGrade = gradeOf s'.scorePercentage ∧ 0 ≤ s'.scorePercentage ∧
      s'.scorePercentage ≤ 100) ∧
    (∀ (db : DB) (qz : Quiz) (userId : Nat) (isAdmin : Bool) (submissionId : Nat)
       (feedback : Option String) (manualGrades : Option (List ManualGrade))
       (aiResult : Except Unit AIInsights) (now : Int) (sub s' : Submission),
      db.subs.find? (fun s => s.sid == submissionId) = some sub →
      GoodAnswers sub.answers → 0 ≤ sub.scorePercentage →
      (evaluateSubmissionOp db qz userId isAdmin submissionId feedback manualGrades
        aiResult now).1 = .ok s' →
      s'.scoreGrade = gradeOf s'.scorePercentage ∧ 0 ≤ s'.scorePercentage) ∧
    (∀ (db : DB) (qz : Quiz) (userId : Nat) (isAdmin : Bool) (submissionId : Nat)
       (decision : RStatus) (response : Option String)
       (newGrades : Option (List ManualGrade)) (now : Int) (sub s' : Submission),
      db.subs.find? (fun s => s.sid == submissionId) = some sub →
      GoodAnswers sub.answers → 0 ≤ sub.scorePercentage →
      (handleRevaluation db qz userId isAdmin submissionId decision response
        newGrades now).1 = .ok s' →
      s'.scoreGrade = gradeOf s'.scorePercentage ∧ 0 ≤ s'.scorePercentage) :=
  ⟨fun db qz student sid raw now s' h =>
      submitQuiz_grade_bounds db qz student sid raw now s' h,
   fun db qz u a sid fb mg ai now sub s' h1 h2 h3 h4 =>
      evaluateSubmission_grade_bounds db qz u a sid fb mg ai now sub s' h1 h2 h3 h4,
   fun db qz u a sid dec resp ng now sub s' h1 h2 h3 h4 =>
      handleRevaluation_grade_bounds db qz u a sid dec resp ng now sub s' h1 h2 h3 h4⟩

/-- Fixture in-progress submission for the C8 witness. -/
def c8wSub : Submission :=
  ⟨81, 5, 7, [], 0, 0, "F", 0, none, 0, 3600, .inProgress, false,
   none, none, none, none, false, none, none, .pending, none, none, none⟩

/-- Witness for the amended C8 on the auto-grade path: a correct answer yields
a saved submission whose grade matches the threshold function and whose
percentage lies in [0,100]. -/
theorem C8_grade_function_amended_witness :
    ∃ s', (submitQuiz ⟨[c8wSub]⟩ c8Quiz 7 81 [⟨1, JSValue.vstr "TRUE", 5⟩] 60000).1 =
        .ok s' ∧
      (s'.scoreGrade = gradeOf s'.scorePercentage ∧ 0 ≤ s'.scorePercentage ∧
       s'.scorePercentage ≤ 100) :=
  ⟨_, rfl, C8_grade_function_amended.1 ⟨[c8wSub]⟩ c8Quiz 7 81
    [⟨1, JSValue.vstr "TRUE", 5⟩] 60000 _ rfl⟩


/-! ## Claim C2: at most one in-progress submission per (quiz, student) -/

/-- Two submissions clash when they are both in-progress attempts of the same
student on the same quiz. -/
def clashB (a b : Submission) : Bool :=
  a.quiz == b.quiz && a.student == b.student && a.status == SStatus.inProgress &&
    b.status == SStatus.inProgress

def AtMostOneInProgress (db : DB) : Prop :=
  db.subs.Pairwise (fun a b => clashB a b = false)

def SidsNodup (db : DB) : Prop :=
  (db.subs.map (fun s => s.sid)).Nodup

instance instDecClash : DecidableRel (fun a b : Submission => clashB a b = false) :=
  fun a b => inferInstanceAs (Decidable (clashB a b = false))

instance instDecSidsNodup (db : DB) : Decidable (SidsNodup db) :=
  decidable_of_iff ((db.subs.map (fun s : Submission => s.sid)).Nodup)
    ⟨fun h => h, fun h => h⟩

instance instDecAtMostOne (db : DB) : Decidable (AtMostOneInProgress db) :=
  decidable_of_iff (List.Pairwise (fun a b => clashB a b = false) db.subs)
    ⟨fun h => h, fun h => h⟩

theorem sids_updateById (db : DB) (sid : Nat) (s' : Submission) (hsid : s'.sid = sid) :
    (updateById db sid s').subs.map (fun s => s.sid) = db.subs.map (fun s => s.sid) := by
  simp only [updateById, List.map_map]
  refine List.map_congr_left ?_
  intro s _
  by_cases h : (s.sid == sid) = true
  · simp only [Function.comp_apply, h, if_pos]
    have : s.sid = sid := by simpa using h
    omega
  · simp only [Function.comp_apply, h, Bool.false_eq_true, if_false]

theorem atMostOne_updateById (db : DB) (sid : Nat) (s' sub : Submission)
    (hnodupS : SidsNodup db) (hmem : sub ∈ db.subs) (hsubsid : sub.sid = sid)
    (hcompat : s'.status = SStatus.inProgress →
      s'.quiz = sub.quiz ∧ s'.student = sub.student ∧ sub.status = SStatus.inProgress)
    (hP : AtMostOneInProgress db) : AtMostOneInProgress (updateById db sid s') := by
  unfold AtMostOneInProgress updateById at *
  rw [List.pairwise_map]
  refine hP.imp_of_mem ?_
  intro a b ha hb hab
  have hinj := List.inj_on_of_nodup_map hnodupS
  by_cases hs : s'.status = SStatus.inProgress
  · obtain ⟨h1, h2, h3⟩ := hcompat hs
    by_cases haid : (a.sid == sid) = true
    · have haeq : a = sub := hinj ha hmem (by simpa [hsubsid] using haid)
      subst haeq
      by_cases hbid : (b.sid == sid) = true
      · have hbeq : b = a := hinj hb hmem (by simpa [hsubsid] using hbid)
        subst hbeq
        exfalso
        simp [clashB, h3] at hab
      · rw [if_pos haid, if_neg hbid]
        simp [clashB, h1, h2, h3, hs] at hab ⊢
        exact hab
    · by_cases hbid : (b.sid == sid) = true
      · have hbeq : b = sub := hinj hb hmem (by simpa [hsubsid] using hbid)
        subst hbeq
        rw [if_neg haid, if_pos hbid]
        simp [clashB, h1, h2, h3, hs] at hab ⊢
        exact hab
      · rw [if_neg haid, if_neg hbid]
        exact hab
  · by_cases haid : (a.sid == sid) = true
    · by_cases hbid : (b.sid == sid) = true
      · rw [if_pos haid, if_pos hbid]
        simp [clashB, hs]
      · rw [if_pos haid, if_neg hbid]
        simp [clashB, hs]
    · by_cases hbid : (b.sid == sid) = true
      · rw [if_neg haid, if_pos hbid]
        simp [clashB, hs]
      · rw [if_neg haid, if_neg hbid]
        exact hab

/-- One state transition of the modelled operation surface.  The `start`
constructor carries the freshness of the Mongo-assigned document id. -/
inductive Step : DB → DB → Prop
  | start (db : DB) (qz : Quiz) (student : Nat) (now : Int) (freshSid : Nat)
      (hfresh : freshSid ∉ db.subs.map (fun s => s.sid)) :
      Step db (startQuizAttempt db qz student now freshSid).2
  | submit (db : DB) (qz : Quiz) (student submissionId : Nat) (raw : List RawAnswer)
      (now : Int) :
      Step db (submitQuiz db qz student submissionId raw now).2
  | evaluate (db : DB) (qz : Quiz) (userId : Nat) (isAdmin : Bool) (submissionId : Nat)
      (feedback : Option String) (manualGrades : Option (List ManualGrade))
      (aiResult : Except Unit AIInsights) (now : Int) :
      Step db (evaluateSubmissionOp db qz userId isAdmin submissionId feedback
        manualGrades aiResult now).2
  | requestReval (db : DB) (userId submissionId : Nat) (reason : Option String) (now : Int) :
      Step db (requestRevaluation db userId submissionId reason now).2
  | handleReval (db : DB) (qz : Quiz) (userId : Nat) (isAdmin : Bool) (submissionId : Nat)
      (decision : RStatus) (response : Option String)
      (newGrades : Option (List ManualGrade)) (now : Int) :
      Step db (handleRevaluation db qz userId isAdmin submissionId decision response
        newGrades now).2

@[simp] theorem finishSubmission_status (s : Submission) (now : Int) :
    (finishSubmission s now).status = SStatus.submitted := rfl

@[simp] theorem finishSubmission_sid (s : Submission) (now : Int) :
    (finishSubmission s now).sid = s.sid := rfl

@[simp] theorem finishSubmission_quiz (s : Submission) (now : Int) :
    (finishSubmission s now).quiz = s.quiz := rfl

@[simp] theorem finishSubmission_student (s : Submission) (now : Int) :
    (finishSubmission s now).student = s.student := rfl

theorem inv_start (db : DB) (qz : Quiz) (student : Nat) (now : Int) (freshSid : Nat)
    (hfresh : freshSid ∉ db.subs.map (fun s => s.sid))
    (h1 : SidsNodup db) (h2 : AtMostOneInProgress db) :
    SidsNodup (startQuizAttempt db qz student now freshSid).2 ∧
    AtMostOneInProgress (startQuizAttempt db qz student now freshSid).2 := by
  by_cases hA : (!isAvailable qz now) = true
  · simp only [startQuizAttempt, if_pos hA]
    exact ⟨h1, h2⟩
  · by_cases hB : (!hasAccess qz student) = true
    · simp only [startQuizAttempt, if_neg hA, if_pos hB]
      exact ⟨h1, h2⟩
    · rcases hfind : findInProgress db qz.qzid student with _ | ex
      · by_cases hR : (!qz.settings.allowRetake && hasCompleted db qz.qzid student) = true
        · simp only [startQuizAttempt, if_neg hA, if_neg hB, hfind, if_pos hR]
          exact ⟨h1, h2⟩
        · simp only [startQuizAttempt, if_neg hA, if_neg hB, hfind, if_neg hR]
          constructor
          · unfold SidsNodup
            show (List.map (fun s => s.sid)
              (db.subs ++ [presave (newSubmission freshSid qz student now)])).Nodup
            rw [List.map_append, List.nodup_append]
            refine ⟨h1, by simp, ?_⟩
            intro x hx
            simp only [List.map_cons, List.map_nil, List.mem_cons, List.not_mem_nil, or_false]
            intro hxe
            apply hfresh
            have hxf : x = freshSid := hxe
            rw [← hxf]
            exact hx
          · unfold AtMostOneInProgress
            show List.Pairwise _ (db.subs ++ [presave (newSubmission freshSid qz student now)])
            rw [List.pairwise_append]
            refine ⟨h2, by simp, ?_⟩
            intro a ha b hb
            simp only [List.mem_singleton] at hb
            subst hb
            have hno := List.find?_eq_none.mp hfind a ha
            simp [inProgFor] at hno
            simp [clashB, presave, newSubmission, gradeOf]
            intro hq hstn
            exact hno hq hstn
      · simp only [startQuizAttempt, if_neg hA, if_neg hB, hfind]
        exact ⟨h1, h2⟩

theorem inv_submit (db : DB) (qz : Quiz) (student submissionId : Nat)
    (raw : List RawAnswer) (now : Int)
    (h1 : SidsNodup db) (h2 : AtMostOneInProgress db) :
    SidsNodup (submitQuiz db qz student submissionId raw now).2 ∧
    AtMostOneInProgress (submitQuiz db qz student submissionId raw now).2 := by
  rcases hfind : db.subs.find? (fun s =>
      s.sid == submissionId && s.student == student && s.status == SStatus.inProgress)
    with _ | sub
  · simp only [submitQuiz, hfind]
    exact ⟨h1, h2⟩
  · by_cases ht : (sub.timeLimit != 0 &&
        decide ((now - sub.startTime) / 1000 > sub.timeLimit)) = true
    · simp only [submitQuiz, hfind]
      rw [if_pos ht]
      exact ⟨h1, h2⟩
    · rcases hpa : processAnswers qz.questions raw with _ | answers
      · simp only [submitQuiz, hfind, hpa]
        rw [if_neg ht]
        exact ⟨h1, h2⟩
      · simp only [submitQuiz, hfind, hpa]
        rw [if_neg ht]
        have hmem := List.mem_of_find?_eq_some hfind
        constructor
        · unfold SidsNodup
          rw [sids_updateById db sub.sid _ (by rw [presave_sid]; split <;> rfl)]
          exact h1
        · exact atMostOne_updateById db sub.sid _ sub h1 hmem rfl
            (fun hs => absurd hs (by simp only [presave_status]; split <;> simp)) h2

theorem inv_evaluate (db : DB) (qz : Quiz) (userId : Nat) (isAdmin : Bool)
    (submissionId : Nat) (feedback : Option String)
    (manualGrades : Option (List ManualGrade)) (aiResult : Except Unit AIInsights)
    (now : Int) (h1 : SidsNodup db) (h2 : AtMostOneInProgress db) :
    SidsNodup (evaluateSubmissionOp db qz userId isAdmin submissionId feedback
      manualGrades aiResult now).2 ∧
    AtMostOneInProgress (evaluateSubmissionOp db qz userId isAdmin submissionId feedback
      manualGrades aiResult now).2 := by
  rcases hfind : db.subs.find? (fun s => s.sid == submissionId) with _ | sub
  · simp only [evaluateSubmissionOp, hfind]
    exact ⟨h1, h2⟩
  · by_cases hauth : (qz.createdBy != userId && !isAdmin) = true
    · simp only [evaluateSubmissionOp, hfind]
      rw [if_pos hauth]
      exact ⟨h1, h2⟩
    · simp only [evaluateSubmissionOp, hfind]
      rw [if_neg hauth]
      have hmem := List.mem_of_find?_eq_some hfind
      constructor
      · unfold SidsNodup
        rw [sids_updateById db sub.sid _ (by
          rw [presave_sid]
          cases manualGrades <;> cases aiResult <;> split <;> rfl)]
        exact h1
      · exact atMostOne_updateById db sub.sid _ sub h1 hmem rfl
          (fun hs => absurd hs (by
            rw [presave_status]
            cases manualGrades <;> cases aiResult <;> split <;> simp)) h2

theorem inv_requestReval (db : DB) (userId submissionId : Nat) (reason : Option String)
    (now : Int) (h1 : SidsNodup db) (h2 : AtMostOneInProgress db) :
    SidsNodup (requestRevaluation db userId submissionId reason now).2 ∧
    AtMostOneInProgress (requestRevaluation db userId submissionId reason now).2 := by
  rcases hfind : db.subs.find? (fun s => s.sid == submissionId) with _ | sub
  · simp only [requestRevaluation, hfind]
    exact ⟨h1, h2⟩
  · by_cases hown : (sub.student != userId) = true
    · simp only [requestRevaluation, hfind]
      rw [if_pos hown]
      exact ⟨h1, h2⟩
    · by_cases hst : (sub.status != SStatus.evaluated) = true
      · simp only [requestRevaluation, hfind]
        rw [if_neg hown, if_pos hst]
        exact ⟨h1, h2⟩
      · by_cases hreq : sub.revalRequested = true
        · simp only [requestRevaluation, hfind]
          rw [if_neg hown, if_neg hst, if_pos hreq]
          exact ⟨h1, h2⟩
        · simp only [requestRevaluation, hfind]
          rw [if_neg hown, if_neg hst, if_neg hreq]
          have hmem := List.mem_of_find?_eq_some hfind
          have hev : sub.status = SStatus.evaluated := by
            simpa using hst
          constructor
          · unfold SidsNodup
            rw [sids_updateById db sub.sid _ (by rw [presave_sid])]
            exact h1
          · exact atMostOne_updateById db sub.sid _ sub h1 hmem rfl
              (fun hs => absurd hs (by
                rw [presave_status]
                show ¬ sub.status = SStatus.inProgress
                rw [hev]
                simp)) h2

theorem inv_handleReval (db : DB) (qz : Quiz) (userId : Nat) (isAdmin : Bool)
    (submissionId : Nat) (decision : RStatus) (response : Option String)
    (newGrades : Option (List ManualGrade)) (now : Int)
    (h1 : SidsNodup db) (h2 : AtMostOneInProgress db) :
    SidsNodup (handleRevaluation db qz userId isAdmin submissionId decision response
      newGrades now).2 ∧
    AtMostOneInProgress (handleRevaluation db qz userId isAdmin submissionId decision response
      newGrades now).2 := by
  rcases hfind : db.subs.find? (fun s => s.sid == submissionId) with _ | sub
  · simp only [handleRevaluation, hfind]
    exact ⟨h1, h2⟩
  · by_cases hauth : (qz.createdBy != userId && !isAdmin) = true
    · simp only [handleRevaluation, hfind]
      rw [if_pos hauth]
      exact ⟨h1, h2⟩
    · by_cases hreq : (!sub.revalRequested) = true
      · simp only [handleRevaluation, hfind]
        rw [if_neg hauth, if_pos hreq]
        exact ⟨h1, h2⟩
      · simp only [handleRevaluation, hfind]
        rw [if_neg hauth, if_neg hreq]
        have hmem := List.mem_of_find?_eq_some hfind
        constructor
        · unfold SidsNodup
          rw [sids_updateById db sub.sid _ (by
            rw [presave_sid]
            cases decision <;> cases newGrades <;> rfl)]
          exact h1
        · refine atMostOne_updateById db sub.sid _ sub h1 hmem rfl ?_ h2
          intro hs
          cases decision <;> cases newGrades <;>
            exact ⟨by first | (rw [presave_quiz]; rfl) | rw [presave_quiz],
              by first | (rw [presave_student]; rfl) | rw [presave_student],
              by rw [presave_status] at hs; exact hs⟩

/-- C2 (confirmed): every modelled operation preserves the invariant that at
most one in-progress submission exists per (quiz, student) pair — under the
Mongo guarantee that document ids are unique, carried as `SidsNodup` and the
freshness hypothesis on created ids; and when an in-progress submission
already exists for the pair (with the quiz available and the student
authorized), `startQuizAttempt` fails with the conflict error carrying the
existing record and the store is unchanged, so no new submission is created.
Each operation here is one atomic unit of work, as §5 of the spec requires of
the persistence collaborator. -/
theorem C2_single_in_progress :
    (∀ db db' : DB, SidsNodup db → AtMostOneInProgress db → Step db db' →
      SidsNodup db' ∧ AtMostOneInProgress db') ∧
    (∀ (db : DB) (qz : Quiz) (student : Nat) (now : Int) (freshSid : Nat) (ex : Submission),
      isAvailable qz now = true → hasAccess qz student = true →
      findInProgress db qz.qzid student = some ex →
      startQuizAttempt db qz student now freshSid = (.error (.conflict ex), db)) := by
  constructor
  · intro db db' h1 h2 hstep
    cases hstep with
    | start qz student now freshSid hfresh =>
        exact inv_start db qz student now freshSid hfresh h1 h2
    | submit qz student submissionId raw now =>
        exact inv_submit db qz student submissionId raw now h1 h2
    | evaluate qz userId isAdmin submissionId feedback manualGrades aiResult now =>
        exact inv_evaluate db qz userId isAdmin submissionId feedback manualGrades
          aiResult now h1 h2
    | requestReval userId submissionId reason now =>
        exact inv_requestReval db userId submissionId reason now h1 h2
    | handleReval qz userId isAdmin submissionId decision response newGrades now =>
        exact inv_handleReval db qz userId isAdmin submissionId decision response
          newGrades now h1 h2
  · intro db qz student now freshSid ex hav hacc hfind
    simp [startQuizAttempt, hav, hacc, hfind]

/-- Fixture quiz for the C2 witness. -/
def c2Quiz : Quiz :=
  ⟨5, [], 1, [], .published, ⟨60, true, true, 60⟩, none, none⟩

/-- An empty store. -/
def c2Db0 : DB := ⟨[]⟩

/-- The store after student 7 starts an attempt. -/
def c2Db1 : DB := (startQuizAttempt c2Db0 c2Quiz 7 1000 5).2

/-- Fixture in-progress submission for the conflict part of the C2 witness. -/
def c2SubB : Submission :=
  ⟨61, 5, 7, [], 0, 0, "F", 1000, none, 0, 3600, .inProgress, false,
   none, none, none, none, false, none, none, .pending, none, none, none⟩

/-- A store holding one in-progress attempt of student 7 on quiz 5. -/
def c2DbB : DB := ⟨[c2SubB]⟩

/-- Witness for C2: the invariant survives a concrete start step, and a second
start for the same pair yields the conflict error with the store unchanged. -/
theorem C2_single_in_progress_witness :
    (SidsNodup c2Db1 ∧ AtMostOneInProgress c2Db1) ∧
    startQuizAttempt c2DbB c2Quiz 7 2000 99 = (.error (.conflict c2SubB), c2DbB) :=
  ⟨C2_single_in_progress.1 c2Db0 c2Db1 (by decide) (by decide)
      (Step.start c2Db0 c2Quiz 7 1000 5 (by decide)),
   C2_single_in_progress.2 c2DbB c2Quiz 7 2000 99 c2SubB (by decide) (by decide) (by decide)⟩

end QuizMantra
